import Mathlib

/-!
# constatus: the libcamera capture backend (`src/source_libcamera.cpp`)

A shallow embedding of `source_libcamera::request_completed` and
`source_libcamera::operator()`.

* Pointers are natural numbers, `0` being the null pointer.  A member that is
  only assigned on some paths (`stream`, `allocator`) is an `Option`: `none`
  means that no assignment has been executed on the current path.
* Calls into libcamera, libc and the `source` base class are recorded as
  `Event`s, in program order.  Outcomes that the program cannot influence
  (return codes, the offered configurations, the allocated buffers, mmap
  addresses, what the hardware completes and when the stop flag is raised) are
  inputs, collected in `Device` and in the list of dispatcher ticks.
* Dereferencing a pointer that was never assigned, or indexing an empty
  configuration, has no defined behaviour in C++; the embedding stops there
  with `Ending.fault`.  `error_exit` terminates the process (`Ending.exited`).
-/

namespace Constatus

/-! ## Pixel formats -/

/-- The `fourcc_code(a, b, c, d)` packing of `drm_fourcc.h`: four characters into a `uint32_t`. -/
def fourcc_code (a b c d : Char) : Nat :=
  (a.toNat ||| (b.toNat <<< 8) ||| (c.toNat <<< 16) ||| (d.toNat <<< 24)) % 2 ^ 32

/-- The constant `DRM_FORMAT_RGB888` of `drm_fourcc.h`, `fourcc_code('R', 'G', '2', '4')`. -/
def DRM_FORMAT_RGB888 : Nat := fourcc_code 'R' 'G' '2' '4'

/-- The fourcc `fourcc_code('M', 'J', 'P', 'G')`. -/
def FOURCC_MJPG : Nat := fourcc_code 'M' 'J' 'P' 'G'

/-- The fourcc `fourcc_code('J', 'P', 'E', 'G')`. -/
def FOURCC_JPEG : Nat := fourcc_code 'J' 'P' 'E' 'G'

/-- The two encodings of `encoding_t` that the backend publishes. -/
inductive encoding_t where
  | E_RGB
  | E_JPEG
  deriving DecidableEq, Repr

/-! ## libcamera data -/

/-- One `libcamera::FrameBuffer::Plane`: the descriptor `fd.fd()` and `length`. -/
structure Plane where
  fd : Int
  length : Nat
  deriving DecidableEq, Repr

/-- One `libcamera::FrameBuffer`, identified by its address `ptr`. -/
structure FrameBuffer where
  ptr : Nat
  planes : List Plane
  deriving DecidableEq, Repr

/-- The values of `libcamera::Request::Status`. -/
inductive Status where
  | RequestPending
  | RequestComplete
  | RequestCancelled
  deriving DecidableEq, Repr

/-- The values of `libcamera::ControlType`. -/
inductive ControlType where
  | ControlTypeNone
  | ControlTypeBool
  | ControlTypeByte
  | ControlTypeInteger32
  | ControlTypeInteger64
  | ControlTypeFloat
  | ControlTypeString
  | ControlTypeRectangle
  | ControlTypeSize
  deriving DecidableEq, Repr

/-- One `libcamera::ControlId` of `camera->controls()`. -/
structure ControlId where
  id : Nat
  name : String
  type : ControlType
  deriving DecidableEq, Repr

/-- The value handed to `ControlList::set`: `float_atof s` stands for
`float(atof(s.c_str()))`, `string s` for the string `s` itself. -/
inductive ControlValue where
  | float_atof (s : String)
  | string (s : String)
  deriving DecidableEq, Repr

/-- One `libcamera::Request`.  `buffers` is the `BufferMap` (stream pointer to frame
buffer) in iteration order, `controls` the calls of `ControlList::set` made on
`request->controls()`, oldest first. -/
structure Request where
  ptr : Nat
  status : Status
  buffers : List (Nat × FrameBuffer)
  controls : List (Nat × ControlValue)
  deriving DecidableEq, Repr

/-- What `camera->createRequest()` returns for the address `ptr`: a pending request
without buffers and without controls. -/
def Request.fresh (ptr : Nat) : Request :=
  { ptr := ptr, status := Status.RequestPending, buffers := [], controls := [] }

/-- The insertion of `bufferMap_[stream] = buffer` for a key that is not present:
a `std::map` keeps its entries in ascending key order. -/
def bufferMapInsert (stream : Nat) (buffer : FrameBuffer) :
    List (Nat × FrameBuffer) → List (Nat × FrameBuffer)
  | [] => [(stream, buffer)]
  | (s, b) :: rest =>
    if stream < s then (stream, buffer) :: (s, b) :: rest
    else (s, b) :: bufferMapInsert stream buffer rest

/-- The libcamera call `Request::addBuffer(stream, buffer)`: `-EINVAL` for a null stream,
`-EEXIST` when the stream already has a buffer in this request, otherwise the
buffer is bound and `0` is returned. -/
def Request.addBuffer (r : Request) (stream : Nat) (buffer : FrameBuffer) : Request × Int :=
  if stream = 0 then (r, -22)
  else if (r.buffers.map Prod.fst).contains stream then (r, -17)
  else ({ r with buffers := bufferMapInsert stream buffer r.buffers }, 0)

/-- One `libcamera::StreamConfiguration`: the fourcc of `pixelFormat` and `size`. -/
structure StreamConfiguration where
  pixelFormat : Nat
  width : Nat
  height : Nat
  deriving DecidableEq, Repr

/-! ## `std::map<int, std::pair<void *, unsigned int>> mappedBuffers` -/

/-- The type of `mappedBuffers`: descriptor to (address, length). -/
abbrev MappedBuffers := List (Int × (Nat × Nat))

/-- The lookup `std::map::find`. -/
def mapFind : MappedBuffers → Int → Option (Nat × Nat)
  | [], _ => none
  | (k, v) :: rest, fd => if k = fd then some v else mapFind rest fd

/-- The assignment `m[fd] = v`: replaces the entry of `fd`, or adds one. -/
def mapAssign : MappedBuffers → Int → Nat × Nat → MappedBuffers
  | [], fd, v => [(fd, v)]
  | (k, w) :: rest, fd, v =>
    if k = fd then (k, v) :: rest else (k, w) :: mapAssign rest fd v

/-- The read `m[fd]`: `std::map::operator[]` adds a value-initialised entry
`(nullptr, 0)` when `fd` has none, and returns the entry. -/
def mapIndex (m : MappedBuffers) (fd : Int) : MappedBuffers × (Nat × Nat) :=
  match mapFind m fd with
  | some v => (m, v)
  | none => (mapAssign m fd (0, 0), (0, 0))

/-! ## Events, configuration, device -/

/-- The log levels used by the backend. -/
inductive LogLevel where
  | LL_INFO
  | LL_ERR
  deriving DecidableEq, Repr

/-- The calls made by the backend into libcamera, libc and the `source` base class. -/
inductive Event where
  | log (level : LogLevel) (msg : String)
  | error_exit (msg : String)
  | set_thread_name (name : String)
  | cm_start
  | cm_get (dev : String)
  | camera_acquire
  | generateConfiguration
  | validate (config : List StreamConfiguration)
  | configure (config : List StreamConfiguration)
  | allocate (stream : Nat)
  | createRequest (result : Option Nat)
  | addBuffer (request : Nat) (stream : Nat) (buffer : Nat) (ret : Int)
  | mmap (length : Nat) (fd : Int) (memory : Nat)
  | ctls_set (request : Nat) (id : Nat) (value : ControlValue)
  | connect_requestCompleted
  | camera_start
  | queueRequest (request : Request)
  | track_cpu_usage
  | set_frame (e : encoding_t) (data : Nat) (length : Nat)
  | camera_stop
  | allocator_free (stream : Nat)
  | allocator_delete
  | camera_release
  | cm_stop
  | register_thread_end (name : String)
  deriving DecidableEq, Repr

/-- The constructor arguments that the backend reads.  `max_fps` is a `double` in the
source; `ctrls` is the `std::map` from control name to the `get_value_string()` of
its parameter; `str_tolower` is the helper of `utils.h`. -/
structure Config where
  dev : String
  max_fps : ℚ
  w_requested : Nat
  h_requested : Nat
  prefer_jpeg : Bool
  ctrls : List (String × String)
  str_tolower : String → String

/-! ## Negotiation (lines 103-125) -/

/-- The loop of lines 104-112, entered with the running index `idx`; `rest` are the
configurations `camera_config->at(idx)`, `at(idx + 1)`, ... still to be visited.
Returns the value of `idx` when the loop is left. -/
def select_loop (prefer_jpeg : Bool) : List StreamConfiguration → Nat → Nat
  | [], idx => idx
  | c :: rest, idx =>
    let format := c.pixelFormat
    if prefer_jpeg && (format == FOURCC_MJPG || format == FOURCC_JPEG) then idx
    else if !prefer_jpeg && format == DRM_FORMAT_RGB888 then idx
    else select_loop prefer_jpeg rest (idx + 1)

/-- Lines 103-115: the index of the stream configuration that is used. -/
def select_index (prefer_jpeg : Bool) (camera_config : List StreamConfiguration) : Nat :=
  let idx := select_loop prefer_jpeg camera_config 0
  if idx = camera_config.length then 0 else idx

/-- Lines 117-121: the configuration handed to `camera_config->validate()`.  The chosen
entry gets the requested size and then `libcamera::PixelFormat(DRM_FORMAT_RGB888)`. -/
def prepare_config (cfg : Config) (camera_config : List StreamConfiguration) (idx : Nat) :
    List StreamConfiguration :=
  camera_config.modify
    (fun stream_config =>
      let stream_config := { stream_config with width := cfg.w_requested }
      let stream_config := { stream_config with height := cfg.h_requested }
      { stream_config with pixelFormat := DRM_FORMAT_RGB888 })
    idx

/-- Line 98: `interval`, in microseconds.  The source computes it in `double` and
converts to `uint64_t`; here the arithmetic is exact and the conversion truncates. -/
def interval (max_fps : ℚ) : Nat :=
  if max_fps > 0 then (1 / max_fps * 1000 * 1000).floor.toNat % 2 ^ 64 else 0

/-! ## The object state -/

/-- The allocator object made by `new libcamera::FrameBufferAllocator(camera)`; after
`allocate(stream)` it owns `buffers`. -/
structure FrameBufferAllocator where
  buffers : List FrameBuffer
  deriving DecidableEq, Repr

/-- The members of `source_libcamera` that the two functions read or write. -/
structure State where
  pixelformat : Nat
  width : Nat
  height : Nat
  stream : Option Nat
  allocator : Option FrameBufferAllocator
  mappedBuffers : MappedBuffers
  requests : List Request
  deriving DecidableEq, Repr

/-- The members before `operator()` has run. -/
def State.initial : State :=
  { pixelformat := 0, width := 0, height := 0, stream := none, allocator := none,
    mappedBuffers := [], requests := [] }

/-! ## `source_libcamera::request_completed` (lines 27-67) -/

/-- The body of the inner loop (lines 38-50) for one buffer: only the first plane is
visited, because of the `break` of line 49. -/
def publish_buffer (pixelformat : Nat) (m : MappedBuffers) (buffer : FrameBuffer) :
    MappedBuffers × List Event :=
  match buffer.planes with
  | [] => (m, [])
  | plane :: _ =>
    let (m, entry) := mapIndex m plane.fd
    let data := entry.1
    let length := plane.length
    if pixelformat = FOURCC_MJPG ∨ pixelformat = FOURCC_JPEG then
      (m, [Event.set_frame encoding_t.E_JPEG data length])
    else if pixelformat = DRM_FORMAT_RGB888 then
      (m, [Event.set_frame encoding_t.E_RGB data length])
    else
      (m, [Event.log LogLevel.LL_ERR "Unexpected pixelformat"])

/-- The outer loop of lines 34-51 over the buffer map. -/
def publish_buffers (pixelformat : Nat) :
    MappedBuffers → List (Nat × FrameBuffer) → MappedBuffers × List Event
  | m, [] => (m, [])
  | m, (_, buffer) :: rest =>
    let (m, evs) := publish_buffer pixelformat m buffer
    let (m, evs2) := publish_buffers pixelformat m rest
    (m, evs ++ evs2)

/-- The loop of lines 59-64: every entry of the completed request's buffer map is added
to the new request; the return value of `addBuffer` is not looked at. -/
def rebind (request : Request) : List (Nat × FrameBuffer) → Request × List Event
  | [] => (request, [])
  | (stream, buffer) :: rest =>
    let (request2, ret) := request.addBuffer stream buffer
    let (request3, evs) := rebind request2 rest
    (request3, Event.addBuffer request.ptr stream buffer.ptr ret :: evs)

/-- The callback `source_libcamera::request_completed(request)`.  `created` is what
`camera->createRequest()` returns at line 53: `none` for a null pointer, otherwise
the address of the new request. -/
def request_completed (s : State) (request : Request) (created : Option Nat) :
    State × List Event :=
  if request.status = Status.RequestCancelled then (s, [])
  else
    let buffers := request.buffers
    let (m, evs) := publish_buffers s.pixelformat s.mappedBuffers buffers
    let s := { s with mappedBuffers := m }
    match created with
    | none =>
      (s, evs ++ [Event.createRequest none,
        Event.log LogLevel.LL_ERR "Cannot create request for camera: stream will stall"])
    | some ptr =>
      let (request, evs2) := rebind (Request.fresh ptr) buffers
      (s, evs ++ [Event.createRequest (some ptr)] ++ evs2 ++ [Event.queueRequest request])

/-! ## The device -/

/-- Everything `operator()` obtains from libcamera and libc during set-up. -/
structure Device where
  /-- The return code of `cm->start()`. -/
  cm_start : Int
  /-- Whether `cm->get(dev)` returns a camera. -/
  camera : Bool
  /-- The return code of `camera->acquire()`. -/
  acquire : Int
  /-- The controls in `camera->controls()`, in iteration order. -/
  controls : List ControlId
  /-- The configurations of `camera->generateConfiguration(roles)`. -/
  camera_config : List StreamConfiguration
  /-- What `camera_config->validate()` turns the configuration into. -/
  validate : List StreamConfiguration → List StreamConfiguration
  /-- The return code of `camera->configure(...)`. -/
  configure : Int
  /-- The pointer `stream_config.stream()` after a successful `configure`. -/
  stream : Nat
  /-- The vector `allocator->buffers(stream)` after `allocator->allocate(stream)`. -/
  buffers : List FrameBuffer
  /-- The result of `camera->createRequest()` in iteration `i` of the pool loop. -/
  createRequest : Nat → Option Nat
  /-- The address returned by `mmap` for plane `j` of buffer `i`. -/
  mmap : Nat → Nat → Nat

/-! ## The request pool (lines 149-186) -/

/-- The loop of lines 164-168 over the planes of buffer `i`, entered at plane `j`. -/
def map_planes (d : Device) (i : Nat) :
    MappedBuffers → List Plane → Nat → MappedBuffers × List Event
  | m, [], _ => (m, [])
  | m, plane :: rest, j =>
    let memory := d.mmap i j
    let m := mapAssign m plane.fd (memory, plane.length)
    let (m, evs) := map_planes d i m rest (j + 1)
    (m, Event.mmap plane.length plane.fd memory :: evs)

/-- The loop of lines 170-183 over the advertised controls. -/
def apply_controls (cfg : Config) : Request → List ControlId → Request × List Event
  | request, [] => (request, [])
  | request, id :: rest =>
    match cfg.ctrls.lookup (cfg.str_tolower id.name) with
    | none => apply_controls cfg request rest
    | some value_string =>
      if id.type = ControlType.ControlTypeFloat then
        let v := ControlValue.float_atof value_string
        let (r, evs) :=
          apply_controls cfg { request with controls := request.controls ++ [(id.id, v)] } rest
        (r, Event.ctls_set request.ptr id.id v :: evs)
      else if id.type = ControlType.ControlTypeString then
        let v := ControlValue.string value_string
        let (r, evs) :=
          apply_controls cfg { request with controls := request.controls ++ [(id.id, v)] } rest
        (r, Event.ctls_set request.ptr id.id v :: evs)
      else apply_controls cfg request rest

/-- What the pool loop leaves behind. -/
structure Pool where
  fail : Bool
  mappedBuffers : MappedBuffers
  requests : List Request
  events : List Event

/-- The loop of lines 149-186, entered at index `i` with the buffers `buffers[i]`,
`buffers[i + 1]`, ... still to be visited. -/
def build_pool (cfg : Config) (d : Device) (stream : Nat) :
    List FrameBuffer → Nat → MappedBuffers → List Request → Pool
  | [], _, m, requests => { fail := false, mappedBuffers := m, requests := requests, events := [] }
  | buffer :: rest, i, m, requests =>
    match d.createRequest i with
    | none =>
      { fail := true, mappedBuffers := m, requests := requests,
        events := [Event.createRequest none,
          Event.log LogLevel.LL_ERR "Can't create request for camera"] }
    | some ptr =>
      let (request, ret) := (Request.fresh ptr).addBuffer stream buffer
      if ret < 0 then
        { fail := true, mappedBuffers := m, requests := requests,
          events := [Event.createRequest (some ptr), Event.addBuffer ptr stream buffer.ptr ret,
            Event.log LogLevel.LL_ERR "Can't set buffer for request: %s"] }
      else
        let (m, evs1) := map_planes d i m buffer.planes 0
        let (request, evs2) := apply_controls cfg request d.controls
        let p := build_pool cfg d stream rest (i + 1) m (requests ++ [request])
        { p with events := [Event.createRequest (some ptr),
            Event.addBuffer ptr stream buffer.ptr ret] ++ evs1 ++ evs2 ++ p.events }

/-! ## The run loop (lines 198-206) -/

/-- One completion delivered by `dispatcher->processEvents()`: the camera finishes the
request at position `slot` of its queue with `status`; `created` is the result of
the `camera->createRequest()` that the callback makes. -/
structure Completion where
  slot : Nat
  status : Status
  created : Option Nat
  deriving DecidableEq, Repr

/-- The object state, the requests held by the camera, and the calls made so far. -/
structure Sim where
  state : State
  queued : List Request
  events : List Event

/-- The requests handed to `camera->queueRequest` in a list of calls. -/
def queued_by : List Event → List Request
  | [] => []
  | Event.queueRequest r :: rest => r :: queued_by rest
  | _ :: rest => queued_by rest

/-- The camera completes one of its queued requests and the signal
`requestCompleted` runs `request_completed` on it. -/
def dispatch (sim : Sim) (c : Completion) : Sim :=
  match sim.queued[c.slot]? with
  | none => sim
  | some r =>
    let (s, evs) := request_completed sim.state { r with status := c.status } c.created
    { state := s, queued := sim.queued.eraseIdx c.slot ++ queued_by evs,
      events := sim.events ++ evs }

/-- One iteration of the loop of line 198: the completions delivered while the 100 ms
timer runs, then `st->track_cpu_usage()`. -/
def tick (sim : Sim) (completions : List Completion) : Sim :=
  let sim := completions.foldl dispatch sim
  { sim with events := sim.events ++ [Event.track_cpu_usage] }

/-- The loop of line 198; `local_stop_flag` is found set after the last tick. -/
def run_loop (sim : Sim) (ticks : List (List Completion)) : Sim :=
  ticks.foldl tick sim

/-! ## `source_libcamera::operator()` (lines 69-220) -/

/-- How a run of `operator()` ends. -/
inductive Ending where
  | returned
  | exited
  | fault
  deriving DecidableEq, Repr

/-- The outcome of `operator()`: the calls made, the members, the camera's queue. -/
structure Run where
  events : List Event
  state : State
  queued : List Request
  ending : Ending

/-- The termination section, lines 210-219.  The call `allocator->free(stream)` needs
an allocator and a stream that were assigned on this path. -/
def teardown (s : State) : List Event × Ending :=
  let evs := [Event.log LogLevel.LL_INFO "source libcamera thread terminating",
    Event.camera_stop]
  match s.allocator, s.stream with
  | some _, some stream =>
    (evs ++ [Event.allocator_free stream, Event.allocator_delete, Event.camera_release,
      Event.cm_stop, Event.register_thread_end "source libcamera"], Ending.returned)
  | _, _ => (evs, Ending.fault)

/-- Lines 133-208 of `operator()`: configure the camera and, when that succeeds,
allocate, build the request pool and, when that succeeds too, start the camera,
queue the pool and run the loop.  All three ways out lead to the termination
section.  `camera_config` is the validated configuration. -/
def capture (cfg : Config) (d : Device) (ticks : List (List Completion)) (s : State)
    (camera_config : List StreamConfiguration) : Sim :=
  let evs := [Event.configure camera_config]
  if d.configure ≠ 0 then
    { state := s, queued := [],
      events := evs ++ [Event.log LogLevel.LL_ERR "Cannot configure camera"] }
  else
    let s := { s with stream := some d.stream }
    let s := { s with allocator := some { buffers := d.buffers } }
    let evs := evs ++ [Event.allocate d.stream,
      Event.log LogLevel.LL_INFO "Allocated %u buffers for stream"]
    let pool := build_pool cfg d d.stream d.buffers 0 s.mappedBuffers s.requests
    let s := { s with mappedBuffers := pool.mappedBuffers, requests := pool.requests }
    let evs := evs ++ pool.events
    if pool.fail then { state := s, queued := [], events := evs }
    else
      let evs := evs ++ [Event.connect_requestCompleted, Event.camera_start]
      let evs := evs ++ s.requests.map Event.queueRequest
      run_loop { state := s, queued := s.requests, events := evs } ticks

/-- The thread body `source_libcamera::operator()`.  `ticks` are the iterations of the
run loop before the stop flag is seen, with the completions of each. -/
def operator_call (cfg : Config) (d : Device) (ticks : List (List Completion)) : Run :=
  let s := State.initial
  let evs := [Event.log LogLevel.LL_INFO "source libcamera thread started",
    Event.set_thread_name "src_libcamera", Event.cm_start]
  if d.cm_start ≠ 0 then
    { events := evs ++ [Event.error_exit "libcamera: %s"], state := s, queued := [],
      ending := Ending.exited }
  else
  let evs := evs ++ [Event.cm_get cfg.dev]
  if !d.camera then
    { events := evs ++ [Event.error_exit "Camera \"%s\" not found"], state := s, queued := [],
      ending := Ending.exited }
  else
  let evs := evs ++ [Event.camera_acquire]
  if d.acquire ≠ 0 then
    { events := evs ++ [Event.error_exit "Cannot acquire \"%s\""], state := s, queued := [],
      ending := Ending.exited }
  else
  let evs := evs ++ [Event.log LogLevel.LL_INFO "Camera name: %s",
    Event.log LogLevel.LL_INFO " Controls:%s"]
  let _interval := interval cfg.max_fps
  let evs := evs ++ [Event.generateConfiguration]
  let camera_config := d.camera_config
  let idx := select_index cfg.prefer_jpeg camera_config
  if camera_config.length ≤ idx then
    { events := evs, state := s, queued := [], ending := Ending.fault }
  else
  let camera_config := prepare_config cfg camera_config idx
  let evs := evs ++ [Event.validate camera_config]
  let camera_config := d.validate camera_config
  match camera_config[idx]? with
  | none => { events := evs, state := s, queued := [], ending := Ending.fault }
  | some stream_config =>
  let s := { s with pixelformat := stream_config.pixelFormat }
  let evs := evs ++ [Event.log LogLevel.LL_INFO "Validated configuration is: %s (%c%c%c%c)"]
  let s := { s with width := stream_config.width, height := stream_config.height }
  let sim := capture cfg d ticks s camera_config
  let (tevs, ending) := teardown sim.state
  { events := evs ++ sim.events ++ tevs, state := sim.state, queued := sim.queued,
    ending := ending }

/-! ## Vocabulary of the properties -/

/-- The preference of the claim: a format is preferred when it is MJPG or JPEG and
`prefer_jpeg` is set, or RGB888 and `prefer_jpeg` is not set. -/
def preferred (prefer_jpeg : Bool) (format : Nat) : Prop :=
  if prefer_jpeg then format = FOURCC_MJPG ∨ format = FOURCC_JPEG else format = DRM_FORMAT_RGB888

instance (prefer_jpeg : Bool) (format : Nat) : Decidable (preferred prefer_jpeg format) := by
  unfold preferred; infer_instance

/-- Index `i` of the configuration holds a preferred format. -/
def preferred_at (prefer_jpeg : Bool) (camera_config : List StreamConfiguration) (i : Nat) : Prop :=
  ∃ c, camera_config[i]? = some c ∧ preferred prefer_jpeg c.pixelFormat

/-- The frame handed to `set_frame` by one call: encoding, address, length. -/
def frame_of : Event → Option (encoding_t × Nat × Nat)
  | Event.set_frame e data length => some (e, data, length)
  | _ => none

/-- The frames published by a list of calls, in order. -/
def published (evs : List Event) : List (encoding_t × Nat × Nat) :=
  evs.filterMap frame_of

/-- The address recorded in the table for descriptor `fd`; the null pointer when the
table has no entry for it. -/
def recorded_address (m : MappedBuffers) (fd : Int) : Nat :=
  match mapFind m fd with
  | some entry => entry.1
  | none => 0

/-- The frame that the claim expects for one completed buffer: none without planes;
otherwise decided by the first plane and the negotiated pixel format. -/
def expected_frame (pixelformat : Nat) (m : MappedBuffers) (buffer : FrameBuffer) :
    Option (encoding_t × Nat × Nat) :=
  match buffer.planes.head? with
  | none => none
  | some plane =>
    if pixelformat = FOURCC_MJPG ∨ pixelformat = FOURCC_JPEG then
      some (encoding_t.E_JPEG, recorded_address m plane.fd, plane.length)
    else if pixelformat = DRM_FORMAT_RGB888 then
      some (encoding_t.E_RGB, recorded_address m plane.fd, plane.length)
    else none

/-- A configuration with `prefer_jpeg` set. -/
def cfg_jpeg : Config where
  dev := "/base/soc/i2c0mux/i2c@1/imx219@10"
  max_fps := 1
  w_requested := 640
  h_requested := 480
  prefer_jpeg := true
  ctrls := []
  str_tolower := fun s => s

/-- A camera that offers `formats`, accepts every configuration unchanged and has no
buffers. -/
def dev_offering (formats : List Nat) : Device where
  cm_start := 0
  camera := true
  acquire := 0
  controls := []
  camera_config := formats.map (fun f => { pixelFormat := f, width := 1280, height := 720 })
  validate := fun c => c
  configure := 0
  stream := 1
  buffers := []
  createRequest := fun _ => none
  mmap := fun _ _ => 0

/-- The fourcc `fourcc_code('Y', 'U', 'Y', 'V')`. -/
def FOURCC_YUYV : Nat := fourcc_code 'Y' 'U' 'Y' 'V'

/-- The call of `ControlList::set` that the claim expects for one advertised control:
none when its lower-cased name is no key of the overrides or its type is neither
float nor string. -/
def override_of (cfg : Config) (c : ControlId) : Option (Nat × ControlValue) :=
  match cfg.ctrls.lookup (cfg.str_tolower c.name) with
  | none => none
  | some value_string =>
    if c.type = ControlType.ControlTypeFloat then
      some (c.id, ControlValue.float_atof value_string)
    else if c.type = ControlType.ControlTypeString then
      some (c.id, ControlValue.string value_string)
    else none

/-- Lower-casing of ASCII letters, character by character. -/
def ascii_tolower (s : String) : String :=
  String.mk (s.data.map Char.toLower)

/-- A configuration with four overrides: `gamma` matches no control of `dev_controls`,
`aeenable` matches a control that is neither float-typed nor string-typed. -/
def cfg_controls : Config where
  dev := "/base/soc/i2c0mux/i2c@1/imx219@10"
  max_fps := 0
  w_requested := 640
  h_requested := 480
  prefer_jpeg := false
  ctrls := [("brightness", "0.25"), ("gamma", "2.2"), ("aemode", "manual"), ("aeenable", "1")]
  str_tolower := ascii_tolower

/-- A camera with one single-plane buffer that advertises two float-typed controls, a
string-typed one and a bool-typed one. -/
def dev_controls : Device where
  cm_start := 0
  camera := true
  acquire := 0
  controls := [{ id := 9, name := "Brightness", type := ControlType.ControlTypeFloat },
    { id := 12, name := "AeMode", type := ControlType.ControlTypeString },
    { id := 1, name := "AeEnable", type := ControlType.ControlTypeBool },
    { id := 10, name := "Contrast", type := ControlType.ControlTypeFloat }]
  camera_config := [{ pixelFormat := DRM_FORMAT_RGB888, width := 1280, height := 720 }]
  validate := fun c => c
  configure := 0
  stream := 1
  buffers := [{ ptr := 4096, planes := [{ fd := 20, length := 921600 }] }]
  createRequest := fun i => some (8192 + i)
  mmap := fun i j => 16777216 * (1 + 4 * i + j)

/-- The four device operations of the termination section. -/
def is_teardown_op : Event → Bool
  | Event.camera_stop => true
  | Event.allocator_free _ => true
  | Event.camera_release => true
  | Event.cm_stop => true
  | _ => false

/-- The teardown operations performed by a list of calls, in order. -/
def teardown_ops (evs : List Event) : List Event :=
  evs.filter is_teardown_op

/-- The calls that the pool loop can make. -/
def is_pool_call : Event → Bool
  | Event.createRequest _ => true
  | Event.addBuffer _ _ _ _ => true
  | Event.mmap _ _ _ => true
  | Event.ctls_set _ _ _ => true
  | Event.log _ _ => true
  | _ => false

/-- The calls that `request_completed` and the run loop can make. -/
def is_loop_call : Event → Bool
  | Event.set_frame _ _ _ => true
  | Event.createRequest _ => true
  | Event.addBuffer _ _ _ _ => true
  | Event.queueRequest _ => true
  | Event.track_cpu_usage => true
  | Event.log _ _ => true
  | _ => false

/-- The camera of `dev_controls`, except that `camera->configure` is rejected. -/
def dev_rejecting : Device :=
  { dev_controls with configure := -22 }

/-- The table describes every plane of every allocated buffer by the plane's own
mapping: the address that `mmap` returned for it, and its length. -/
def table_describes_planes (d : Device) (m : MappedBuffers) : Prop :=
  ∀ i j b p, d.buffers[i]? = some b → b.planes[j]? = some p →
    mapFind m p.fd = some (d.mmap i j, p.length)

/-- The fourcc `fourcc_code('N', 'V', '1', '2')`. -/
def FOURCC_NV12 : Nat := fourcc_code 'N' 'V' '1' '2'

/-- A camera that adjusts the configuration to NV12 at validation and whose single
buffer has its two planes backed by one descriptor. -/
def dev_shared_fd : Device :=
  { dev_controls with
    validate := fun c => c.map (fun sc => { sc with pixelFormat := FOURCC_NV12 })
    buffers := [{ ptr := 4096, planes := [{ fd := 20, length := 307200 },
      { fd := 20, length := 153600 }] }] }

/-- The configuration `cfg_controls` with `max_fps` set to one frame per second. -/
def cfg_one_fps : Config :=
  { cfg_controls with max_fps := 1 }

/-- Four iterations of the run loop, each delivering three completions, every one with
its replacement request created. -/
def burst : List (List Completion) :=
  [[{ slot := 0, status := Status.RequestComplete, created := some 9000 },
    { slot := 0, status := Status.RequestComplete, created := some 9001 },
    { slot := 0, status := Status.RequestComplete, created := some 9002 }],
   [{ slot := 0, status := Status.RequestComplete, created := some 9003 },
    { slot := 0, status := Status.RequestComplete, created := some 9004 },
    { slot := 0, status := Status.RequestComplete, created := some 9005 }],
   [{ slot := 0, status := Status.RequestComplete, created := some 9006 },
    { slot := 0, status := Status.RequestComplete, created := some 9007 },
    { slot := 0, status := Status.RequestComplete, created := some 9008 }],
   [{ slot := 0, status := Status.RequestComplete, created := some 9009 },
    { slot := 0, status := Status.RequestComplete, created := some 9010 },
    { slot := 0, status := Status.RequestComplete, created := some 9011 }]]

/-- The frame buffers bound to the requests of a queue, by address, with multiplicity. -/
def queued_buffers (queue : List Request) : List Nat :=
  queue.flatMap (fun r => r.buffers.map (fun sb => sb.2.ptr))

/-- The conservation of the claim for one run of the callback: the buffers of the
completed request are, each exactly once, the buffers bound to the requests that
the callback queued, or the callback freed them. -/
def conserves (s : State) (request : Request) (created : Option Nat) : Prop :=
  (queued_buffers (queued_by (request_completed s request created).2)).Perm
      (request.buffers.map (fun sb => sb.2.ptr)) ∨
    ∃ stream, Event.allocator_free stream ∈ (request_completed s request created).2

/-- A buffer map as libcamera builds it: no null stream, no stream twice. -/
def well_formed (r : Request) : Prop :=
  (r.buffers.map Prod.fst).Nodup ∧ 0 ∉ r.buffers.map Prod.fst

/-- The request that the pool of `dev_controls` holds for its buffer, completed. -/
def completed_request : Request where
  ptr := 8192
  status := Status.RequestComplete
  buffers := [(1, { ptr := 4096, planes := [{ fd := 20, length := 921600 }] })]
  controls := []

/-! # Theorems -/

/-! ## Publication by `request_completed` -/

theorem mapFind_mapAssign (m : MappedBuffers) (fd : Int) (v : Nat × Nat) (k : Int) :
    mapFind (mapAssign m fd v) k = if fd = k then some v else mapFind m k := by
  induction m with
  | nil => simp [mapAssign, mapFind]
  | cons e rest ih =>
    obtain ⟨k', w⟩ := e
    by_cases h1 : k' = fd
    · subst h1
      by_cases h2 : k' = k <;> simp [mapAssign, mapFind, h2]
    · by_cases h2 : k' = k
      · subst h2
        have h3 : ¬ fd = k' := fun h => h1 h.symm
        simp [mapAssign, mapFind, h1, h3]
      · simp [mapAssign, mapFind, h1, h2, ih]

theorem mapIndex_entry (m : MappedBuffers) (fd : Int) :
    (mapIndex m fd).2.1 = recorded_address m fd := by
  unfold mapIndex recorded_address
  cases mapFind m fd <;> rfl

theorem recorded_address_mapIndex (m : MappedBuffers) (fd k : Int) :
    recorded_address (mapIndex m fd).1 k = recorded_address m k := by
  unfold mapIndex
  cases h : mapFind m fd with
  | some v => rfl
  | none =>
    simp only [recorded_address, mapFind_mapAssign]
    by_cases hk : fd = k
    · subst hk; simp [h]
    · simp [hk]

theorem expected_frame_mapIndex (pixelformat : Nat) (m : MappedBuffers) (fd : Int)
    (buffer : FrameBuffer) :
    expected_frame pixelformat (mapIndex m fd).1 buffer = expected_frame pixelformat m buffer := by
  unfold expected_frame
  cases buffer.planes.head? <;> simp [recorded_address_mapIndex]

theorem published_publish_buffer (pixelformat : Nat) (m : MappedBuffers) (buffer : FrameBuffer) :
    published (publish_buffer pixelformat m buffer).2
      = (expected_frame pixelformat m buffer).toList := by
  unfold publish_buffer expected_frame
  cases hp : buffer.planes with
  | nil => simp [published]
  | cons plane rest =>
    simp only [List.head?_cons]
    have := mapIndex_entry m plane.fd
    split_ifs <;> simp [published, frame_of, this]

theorem publish_buffer_table (pixelformat : Nat) (m : MappedBuffers) (buffer : FrameBuffer)
    (b : FrameBuffer) :
    expected_frame pixelformat (publish_buffer pixelformat m buffer).1 b
      = expected_frame pixelformat m b := by
  unfold publish_buffer
  cases hp : buffer.planes with
  | nil => rfl
  | cons plane rest =>
    simp only
    split_ifs <;> exact expected_frame_mapIndex _ _ _ _

theorem published_publish_buffers (pixelformat : Nat) (m : MappedBuffers)
    (buffers : List (Nat × FrameBuffer)) :
    published (publish_buffers pixelformat m buffers).2
      = buffers.filterMap (fun sb => expected_frame pixelformat m sb.2) := by
  induction buffers generalizing m with
  | nil => simp [publish_buffers, published]
  | cons sb rest ih =>
    obtain ⟨stream, buffer⟩ := sb
    simp only [publish_buffers]
    have h1 := published_publish_buffer pixelformat m buffer
    have h2 := ih (publish_buffer pixelformat m buffer).1
    simp only [published] at h1 h2 ⊢
    rw [List.filterMap_append, h1, h2, List.filterMap_cons]
    have h3 : (fun sb : Nat × FrameBuffer =>
        expected_frame pixelformat (publish_buffer pixelformat m buffer).1 sb.2)
        = fun sb => expected_frame pixelformat m sb.2 := by
      funext sb; exact publish_buffer_table _ _ _ _
    rw [h3]
    cases expected_frame pixelformat m buffer <;> simp

theorem published_rebind (request : Request) (buffers : List (Nat × FrameBuffer)) :
    published (rebind request buffers).2 = [] := by
  induction buffers generalizing request with
  | nil => simp [rebind, published]
  | cons sb rest ih =>
    obtain ⟨stream, buffer⟩ := sb
    have := ih (request.addBuffer stream buffer).1
    simp only [published] at this ⊢
    simp [rebind, frame_of, this]

/-- C1: a cancelled request publishes nothing; any other request publishes, for each of
its buffers in order, at most one frame, decided by the first plane of the buffer
alone: JPEG for the MJPG and JPEG fourcc, RGB for RGB888, nothing for any other pixel
format, with the address recorded for the plane's descriptor and the plane's length. -/
theorem request_completed_publishes (s : State) (request : Request) (created : Option Nat) :
    published (request_completed s request created).2
      = if request.status = Status.RequestCancelled then []
        else request.buffers.filterMap
          (fun sb => expected_frame s.pixelformat s.mappedBuffers sb.2) := by
  unfold request_completed
  by_cases hc : request.status = Status.RequestCancelled
  · simp [hc, published]
  · have h := published_publish_buffers s.pixelformat s.mappedBuffers request.buffers
    simp only [hc, if_false]
    cases created with
    | none =>
      simp only [published] at h ⊢
      simp [List.filterMap_append, h, frame_of]
    | some ptr =>
      have h2 := published_rebind (Request.fresh ptr) request.buffers
      simp only [published] at h h2 ⊢
      simp [List.filterMap_append, h, h2, frame_of]

/-! ## Negotiation -/

theorem prepare_config_getElem (cfg : Config) (cs : List StreamConfiguration) (idx : Nat)
    (h : idx < cs.length) :
    (prepare_config cfg cs idx)[idx]?
      = some { pixelFormat := DRM_FORMAT_RGB888, width := cfg.w_requested,
               height := cfg.h_requested } := by
  unfold prepare_config
  rw [List.getElem?_modify_eq, List.getElem?_eq_getElem h]
  rfl

/-- C4, evaluated: with `prefer_jpeg` set, a camera offering only MJPG has RGB888 handed
to validation, and so has a camera offering only YUYV (no preferred format): the
assignment of line 121 replaces the format of the chosen configuration. -/
theorem validation_receives_rgb888 :
    preferred_at true (dev_offering [FOURCC_MJPG]).camera_config 0 ∧
    Event.validate [{ pixelFormat := DRM_FORMAT_RGB888, width := 640, height := 480 }]
      ∈ (operator_call cfg_jpeg (dev_offering [FOURCC_MJPG]) []).events ∧
    DRM_FORMAT_RGB888 ≠ FOURCC_MJPG ∧ DRM_FORMAT_RGB888 ≠ FOURCC_JPEG ∧
    (¬ ∃ i, preferred_at true (dev_offering [FOURCC_YUYV]).camera_config i) ∧
    Event.validate [{ pixelFormat := DRM_FORMAT_RGB888, width := 640, height := 480 }]
      ∈ (operator_call cfg_jpeg (dev_offering [FOURCC_YUYV]) []).events ∧
    DRM_FORMAT_RGB888 ≠ FOURCC_YUYV := by
  refine ⟨⟨_, rfl, by decide⟩, by decide, by decide, by decide, ?_, by decide, by decide⟩
  rintro ⟨i, c, hc, hp⟩
  cases i with
  | zero => cases hc; revert hp; decide
  | succ n => simp [dev_offering] at hc

/-! ## Index selection -/

theorem select_loop_cons (prefer_jpeg : Bool) (c : StreamConfiguration)
    (rest : List StreamConfiguration) (idx : Nat) :
    select_loop prefer_jpeg (c :: rest) idx
      = if preferred prefer_jpeg c.pixelFormat then idx
        else select_loop prefer_jpeg rest (idx + 1) := by
  cases prefer_jpeg <;> simp [select_loop, preferred]

theorem select_loop_eq_findIdx (prefer_jpeg : Bool) (cs : List StreamConfiguration) (idx : Nat) :
    select_loop prefer_jpeg cs idx
      = idx + cs.findIdx (fun c => decide (preferred prefer_jpeg c.pixelFormat)) := by
  induction cs generalizing idx with
  | nil => simp [select_loop]
  | cons c rest ih =>
    rw [select_loop_cons, List.findIdx_cons]
    by_cases hp : preferred prefer_jpeg c.pixelFormat
    · simp [hp]
    · simp [hp, ih]; omega

theorem select_loop_spec (prefer_jpeg : Bool) (cs : List StreamConfiguration) :
    select_loop prefer_jpeg cs 0 ≤ cs.length ∧
    (∀ j, j < select_loop prefer_jpeg cs 0 → ¬ preferred_at prefer_jpeg cs j) ∧
    (select_loop prefer_jpeg cs 0 < cs.length →
      preferred_at prefer_jpeg cs (select_loop prefer_jpeg cs 0)) := by
  rw [select_loop_eq_findIdx, Nat.zero_add]
  refine ⟨List.findIdx_le_length _, ?_, ?_⟩
  · rintro j hj ⟨c, hc, hp⟩
    have hlen : j < cs.length := lt_of_lt_of_le hj (List.findIdx_le_length _)
    have := List.not_of_lt_findIdx hj
    rw [List.getElem?_eq_getElem hlen] at hc
    cases hc
    simp at this
    exact this hp
  · intro hlt
    refine ⟨cs[List.findIdx _ cs], List.getElem?_eq_getElem hlt, ?_⟩
    have := @List.findIdx_getElem _ (fun c => decide (preferred prefer_jpeg c.pixelFormat)) cs hlt
    simpa using this

/-- C5: for a non-empty list of offered configurations the chosen index is a valid
index; when some index holds a preferred format (MJPG or JPEG with `prefer_jpeg`,
RGB888 without) the chosen index is the smallest such index; when none does, the
chosen index is 0. -/
theorem select_index_smallest_preferred (prefer_jpeg : Bool)
    (camera_config : List StreamConfiguration) (h : camera_config ≠ []) :
    select_index prefer_jpeg camera_config < camera_config.length ∧
    ((∃ i, preferred_at prefer_jpeg camera_config i) →
      preferred_at prefer_jpeg camera_config (select_index prefer_jpeg camera_config) ∧
      ∀ j, j < select_index prefer_jpeg camera_config →
        ¬ preferred_at prefer_jpeg camera_config j) ∧
    ((¬ ∃ i, preferred_at prefer_jpeg camera_config i) →
      select_index prefer_jpeg camera_config = 0) := by
  obtain ⟨hle, hmin, hat⟩ := select_loop_spec prefer_jpeg camera_config
  have hpos : 0 < camera_config.length := List.length_pos.mpr h
  by_cases heq : select_loop prefer_jpeg camera_config 0 = camera_config.length
  · have hsel : select_index prefer_jpeg camera_config = 0 := by simp [select_index, heq]
    rw [hsel]
    refine ⟨hpos, ?_, fun _ => rfl⟩
    rintro ⟨i, c, hc, hp⟩
    exfalso
    have hi : i < camera_config.length := by
      by_contra hge
      rw [List.getElem?_eq_none (Nat.le_of_not_lt hge)] at hc
      cases hc
    exact hmin i (heq ▸ hi) ⟨c, hc, hp⟩
  · have hsel : select_index prefer_jpeg camera_config
        = select_loop prefer_jpeg camera_config 0 := by simp [select_index, heq]
    rw [hsel]
    have hlt : select_loop prefer_jpeg camera_config 0 < camera_config.length :=
      lt_of_le_of_ne hle heq
    refine ⟨hlt, fun _ => ⟨hat hlt, hmin⟩, ?_⟩
    intro hnone
    exact absurd ⟨_, hat hlt⟩ hnone

theorem select_index_smallest_preferred_witness :
    ([⟨0, 1, 1⟩, ⟨FOURCC_JPEG, 1, 1⟩, ⟨FOURCC_MJPG, 1, 1⟩] : List StreamConfiguration) ≠ [] ∧
    select_index true [⟨0, 1, 1⟩, ⟨FOURCC_JPEG, 1, 1⟩, ⟨FOURCC_MJPG, 1, 1⟩] = 1 ∧
    preferred_at true [⟨0, 1, 1⟩, ⟨FOURCC_JPEG, 1, 1⟩, ⟨FOURCC_MJPG, 1, 1⟩]
      (select_index true [⟨0, 1, 1⟩, ⟨FOURCC_JPEG, 1, 1⟩, ⟨FOURCC_MJPG, 1, 1⟩]) :=
  ⟨by decide, by decide,
    ((select_index_smallest_preferred true _ (by decide)).2.1
      ⟨1, ⟨FOURCC_JPEG, 1, 1⟩, by decide, by decide⟩).1⟩

/-! ## Device controls at pool build -/

theorem apply_controls_fst (cfg : Config) (request : Request) (cs : List ControlId) :
    (apply_controls cfg request cs).1
      = { request with controls := request.controls ++ cs.filterMap (override_of cfg) } := by
  induction cs generalizing request with
  | nil => simp [apply_controls]
  | cons c rest ih =>
    rw [apply_controls, List.filterMap_cons]
    cases hl : cfg.ctrls.lookup (cfg.str_tolower c.name) with
    | none =>
      have hov : override_of cfg c = none := by simp [override_of, hl]
      simp only [hov, ih]
    | some value_string =>
      simp only
      by_cases h1 : c.type = ControlType.ControlTypeFloat
      · have hov : override_of cfg c = some (c.id, ControlValue.float_atof value_string) := by
          simp [override_of, hl, h1]
        simp [hov, h1, ih]
      · by_cases h2 : c.type = ControlType.ControlTypeString
        · have hov : override_of cfg c = some (c.id, ControlValue.string value_string) := by
            simp [override_of, hl, h2]
          simp [hov, h1, h2, ih]
        · have hov : override_of cfg c = none := by simp [override_of, hl, h1, h2]
          simp [hov, h1, h2, ih]

theorem addBuffer_controls (r : Request) (stream : Nat) (buffer : FrameBuffer) :
    (r.addBuffer stream buffer).1.controls = r.controls := by
  unfold Request.addBuffer
  split_ifs <;> rfl

theorem build_pool_controls (cfg : Config) (d : Device) (stream : Nat)
    (buffers : List FrameBuffer) (i : Nat) (m : MappedBuffers) (requests : List Request) :
    ∀ r ∈ (build_pool cfg d stream buffers i m requests).requests,
      r ∈ requests ∨ r.controls = d.controls.filterMap (override_of cfg) := by
  induction buffers generalizing i m requests with
  | nil => intro r hr; exact Or.inl hr
  | cons buffer rest ih =>
    intro r hr
    rw [build_pool] at hr
    cases hcr : d.createRequest i with
    | none => rw [hcr] at hr; exact Or.inl hr
    | some ptr =>
      rw [hcr] at hr
      simp only at hr
      split_ifs at hr with hret
      · exact Or.inl hr
      · rcases ih _ _ _ r hr with h | h
        · rcases List.mem_append.mp h with h | h
          · exact Or.inl h
          · right
            rw [List.mem_singleton.mp h, apply_controls_fst]
            simp [addBuffer_controls, Request.fresh]
        · exact Or.inr h

theorem build_pool_fail (cfg cfg2 : Config) (d : Device) (stream : Nat)
    (buffers : List FrameBuffer) (i : Nat) (m m2 : MappedBuffers) (requests requests2 : List Request) :
    (build_pool cfg2 d stream buffers i m2 requests2).fail
      = (build_pool cfg d stream buffers i m requests).fail := by
  induction buffers generalizing i m m2 requests requests2 with
  | nil => rfl
  | cons buffer rest ih =>
    rw [build_pool, build_pool]
    cases hcr : d.createRequest i with
    | none => rfl
    | some ptr =>
      simp only
      split_ifs
      · rfl
      · exact ih _ _ _ _ _

theorem apply_controls_congr (cfg cfg2 : Config) (request : Request) (cs : List ControlId)
    (hl : cfg2.str_tolower = cfg.str_tolower)
    (h : ∀ c ∈ cs, cfg2.ctrls.lookup (cfg.str_tolower c.name)
      = cfg.ctrls.lookup (cfg.str_tolower c.name)) :
    apply_controls cfg2 request cs = apply_controls cfg request cs := by
  induction cs generalizing request with
  | nil => rfl
  | cons c rest ih =>
    have hc := h c (List.mem_cons_self _ _)
    have hrest : ∀ c ∈ rest, cfg2.ctrls.lookup (cfg.str_tolower c.name)
        = cfg.ctrls.lookup (cfg.str_tolower c.name) :=
      fun c hc => h c (List.mem_cons_of_mem _ hc)
    rw [apply_controls, apply_controls, hl, hc]
    cases cfg.ctrls.lookup (cfg.str_tolower c.name) with
    | none => exact ih _ hrest
    | some value_string =>
      simp only
      split_ifs <;> simp [ih _ hrest]

theorem build_pool_congr (cfg cfg2 : Config) (d : Device) (stream : Nat)
    (hl : cfg2.str_tolower = cfg.str_tolower)
    (h : ∀ c ∈ d.controls, cfg2.ctrls.lookup (cfg.str_tolower c.name)
      = cfg.ctrls.lookup (cfg.str_tolower c.name))
    (buffers : List FrameBuffer) (i : Nat) (m : MappedBuffers) (requests : List Request) :
    build_pool cfg2 d stream buffers i m requests = build_pool cfg d stream buffers i m requests := by
  induction buffers generalizing i m requests with
  | nil => rfl
  | cons buffer rest ih =>
    rw [build_pool, build_pool]
    cases hcr : d.createRequest i with
    | none => rfl
    | some ptr =>
      simp only
      split_ifs
      · rfl
      · rw [apply_controls_congr cfg cfg2 _ _ hl h, ih]

/-- C6: on every request of the pool a control is set exactly when it belongs to an
advertised control whose lower-cased name is a key of the overrides and whose type is
float or string, with the parsed value string for a float and the value string itself
for a string; overrides that match no advertised control leave the whole pool build
unchanged, and whether the build fails does not depend on the overrides at all. -/
theorem pool_controls_from_overrides (cfg : Config) (d : Device) (stream : Nat)
    (buffers : List FrameBuffer) (i : Nat) (m : MappedBuffers) :
    (∀ r ∈ (build_pool cfg d stream buffers i m []).requests, ∀ id v,
      (id, v) ∈ r.controls ↔
        ∃ c ∈ d.controls, c.id = id ∧
          ∃ value_string, cfg.ctrls.lookup (cfg.str_tolower c.name) = some value_string ∧
            ((c.type = ControlType.ControlTypeFloat ∧ v = ControlValue.float_atof value_string) ∨
             (c.type = ControlType.ControlTypeString ∧ v = ControlValue.string value_string))) ∧
    (∀ cfg2 : Config, cfg2.str_tolower = cfg.str_tolower →
      (∀ c ∈ d.controls, cfg2.ctrls.lookup (cfg.str_tolower c.name)
        = cfg.ctrls.lookup (cfg.str_tolower c.name)) →
      build_pool cfg2 d stream buffers i m [] = build_pool cfg d stream buffers i m []) ∧
    (∀ cfg2 : Config, (build_pool cfg2 d stream buffers i m []).fail
      = (build_pool cfg d stream buffers i m []).fail) := by
  refine ⟨?_, fun cfg2 hl h => build_pool_congr cfg cfg2 d stream hl h _ _ _ _,
    fun cfg2 => build_pool_fail cfg cfg2 d stream _ _ _ _ _ _⟩
  intro r hr id v
  rcases build_pool_controls cfg d stream buffers i m [] r hr with h | h
  · cases h
  · rw [h, List.mem_filterMap]
    constructor
    · rintro ⟨c, hc, hov⟩
      refine ⟨c, hc, ?_⟩
      unfold override_of at hov
      cases hl : cfg.ctrls.lookup (cfg.str_tolower c.name) with
      | none => rw [hl] at hov; cases hov
      | some value_string =>
        rw [hl] at hov
        simp only at hov
        split_ifs at hov with h1 h2
        · cases hov; exact ⟨rfl, value_string, rfl, Or.inl ⟨h1, rfl⟩⟩
        · cases hov; exact ⟨rfl, value_string, rfl, Or.inr ⟨h2, rfl⟩⟩
    · rintro ⟨c, hc, hid, value_string, hl, hv⟩
      refine ⟨c, hc, ?_⟩
      unfold override_of
      rw [hl]
      rcases hv with ⟨ht, hv⟩ | ⟨ht, hv⟩
      · simp [ht, hid, hv]
      · simp [ht, hid, hv]

theorem pool_controls_from_overrides_witness :
    (∀ r ∈ (build_pool cfg_controls dev_controls 1 dev_controls.buffers 0 [] []).requests,
      (9, ControlValue.float_atof "0.25") ∈ r.controls ∧
      (12, ControlValue.string "manual") ∈ r.controls ∧
      (1, ControlValue.string "1") ∉ r.controls) ∧
    (build_pool cfg_controls dev_controls 1 dev_controls.buffers 0 [] []).requests.length = 1 :=
  ⟨fun r hr =>
    ⟨((pool_controls_from_overrides cfg_controls dev_controls 1 dev_controls.buffers 0 []).1
        r hr 9 (ControlValue.float_atof "0.25")).2
        ⟨{ id := 9, name := "Brightness", type := ControlType.ControlTypeFloat },
          by decide, rfl, "0.25", by decide, Or.inl ⟨rfl, rfl⟩⟩,
     ((pool_controls_from_overrides cfg_controls dev_controls 1 dev_controls.buffers 0 []).1
        r hr 12 (ControlValue.string "manual")).2
        ⟨{ id := 12, name := "AeMode", type := ControlType.ControlTypeString },
          by decide, rfl, "manual", by decide, Or.inr ⟨rfl, rfl⟩⟩,
     fun hmem => by
      obtain ⟨c, hc, hid, s, _, hv⟩ :=
        ((pool_controls_from_overrides cfg_controls dev_controls 1 dev_controls.buffers 0 []).1
          r hr 1 (ControlValue.string "1")).1 hmem
      simp only [dev_controls, List.mem_cons, List.mem_singleton, List.not_mem_nil,
        or_false] at hc
      rcases hc with rfl | rfl | rfl | rfl <;> simp at hid hv⟩,
   by decide⟩

/-! ## The calls of each phase -/

theorem map_planes_calls (d : Device) (i : Nat) (m : MappedBuffers) (planes : List Plane)
    (j : Nat) : ∀ e ∈ (map_planes d i m planes j).2, is_pool_call e = true := by
  induction planes generalizing m j with
  | nil => simp [map_planes]
  | cons p rest ih =>
    intro e he
    simp only [map_planes, List.mem_cons] at he
    rcases he with rfl | he
    · rfl
    · exact ih _ _ e he

theorem apply_controls_calls (cfg : Config) (request : Request) (cs : List ControlId) :
    ∀ e ∈ (apply_controls cfg request cs).2, is_pool_call e = true := by
  induction cs generalizing request with
  | nil => simp [apply_controls]
  | cons c rest ih =>
    intro e he
    rw [apply_controls] at he
    cases hl : cfg.ctrls.lookup (cfg.str_tolower c.name) with
    | none => rw [hl] at he; exact ih _ e he
    | some value_string =>
      rw [hl] at he
      simp only at he
      split_ifs at he
      · simp only [List.mem_cons] at he
        rcases he with rfl | he
        · rfl
        · exact ih _ e he
      · simp only [List.mem_cons] at he
        rcases he with rfl | he
        · rfl
        · exact ih _ e he
      · exact ih _ e he

theorem build_pool_calls (cfg : Config) (d : Device) (stream : Nat)
    (buffers : List FrameBuffer) (i : Nat) (m : MappedBuffers) (requests : List Request) :
    ∀ e ∈ (build_pool cfg d stream buffers i m requests).events, is_pool_call e = true := by
  induction buffers generalizing i m requests with
  | nil => simp [build_pool]
  | cons buffer rest ih =>
    intro e he
    rw [build_pool] at he
    cases hcr : d.createRequest i with
    | none =>
      rw [hcr] at he
      simp only [List.mem_cons, List.mem_singleton, List.not_mem_nil, or_false] at he
      rcases he with rfl | rfl <;> rfl
    | some ptr =>
      rw [hcr] at he
      simp only at he
      split_ifs at he
      · simp only [List.mem_cons, List.mem_singleton, List.not_mem_nil, or_false] at he
        rcases he with rfl | rfl | rfl <;> rfl
      · simp only [List.mem_append, List.mem_cons, List.mem_singleton, List.not_mem_nil,
          or_false] at he
        rcases he with (((rfl | rfl) | he) | he) | he
        · rfl
        · rfl
        · exact map_planes_calls _ _ _ _ _ e he
        · exact apply_controls_calls _ _ _ e he
        · exact ih _ _ _ e he

theorem publish_buffers_calls (pixelformat : Nat) (m : MappedBuffers)
    (buffers : List (Nat × FrameBuffer)) :
    ∀ e ∈ (publish_buffers pixelformat m buffers).2, is_loop_call e = true := by
  induction buffers generalizing m with
  | nil => simp [publish_buffers]
  | cons sb rest ih =>
    obtain ⟨stream, buffer⟩ := sb
    intro e he
    simp only [publish_buffers, List.mem_append] at he
    rcases he with he | he
    · unfold publish_buffer at he
      cases hp : buffer.planes with
      | nil => rw [hp] at he; simp at he
      | cons plane more =>
        rw [hp] at he
        simp only at he
        split_ifs at he <;> simp only [List.mem_singleton] at he <;> subst he <;> rfl
    · exact ih _ e he

theorem rebind_calls (request : Request) (buffers : List (Nat × FrameBuffer)) :
    ∀ e ∈ (rebind request buffers).2, is_loop_call e = true := by
  induction buffers generalizing request with
  | nil => simp [rebind]
  | cons sb rest ih =>
    obtain ⟨stream, buffer⟩ := sb
    intro e he
    simp only [rebind, List.mem_cons] at he
    rcases he with rfl | he
    · rfl
    · exact ih _ e he

theorem request_completed_calls (s : State) (request : Request) (created : Option Nat) :
    ∀ e ∈ (request_completed s request created).2, is_loop_call e = true := by
  intro e he
  unfold request_completed at he
  split_ifs at he
  · simp at he
  · cases created with
    | none =>
      simp only [List.mem_append, List.mem_cons, List.mem_singleton, List.not_mem_nil,
        or_false] at he
      rcases he with he | rfl | rfl
      · exact publish_buffers_calls _ _ _ e he
      · rfl
      · rfl
    | some ptr =>
      simp only [List.mem_append, List.mem_cons, List.mem_singleton, List.not_mem_nil,
        or_false] at he
      rcases he with ((he | rfl) | he) | rfl
      · exact publish_buffers_calls _ _ _ e he
      · rfl
      · exact rebind_calls _ _ e he
      · rfl

/-! ## The run loop -/

theorem dispatch_events (sim : Sim) (c : Completion) :
    ∃ extra, (dispatch sim c).events = sim.events ++ extra ∧
      ∀ e ∈ extra, is_loop_call e = true := by
  unfold dispatch
  cases sim.queued[c.slot]? with
  | none => exact ⟨[], by simp, by simp⟩
  | some r => exact ⟨_, rfl, request_completed_calls _ _ _⟩

theorem foldl_dispatch_events (completions : List Completion) (sim : Sim) :
    ∃ extra, (completions.foldl dispatch sim).events = sim.events ++ extra ∧
      ∀ e ∈ extra, is_loop_call e = true := by
  induction completions generalizing sim with
  | nil => exact ⟨[], by simp, by simp⟩
  | cons c rest ih =>
    obtain ⟨x1, h1, k1⟩ := dispatch_events sim c
    obtain ⟨x2, h2, k2⟩ := ih (dispatch sim c)
    refine ⟨x1 ++ x2, by simp [List.foldl_cons, h2, h1], ?_⟩
    intro e he
    rcases List.mem_append.mp he with he | he
    · exact k1 e he
    · exact k2 e he

theorem tick_events (sim : Sim) (completions : List Completion) :
    ∃ extra, (tick sim completions).events = sim.events ++ extra ∧
      ∀ e ∈ extra, is_loop_call e = true := by
  obtain ⟨x, h, k⟩ := foldl_dispatch_events completions sim
  refine ⟨x ++ [Event.track_cpu_usage], by simp [tick, h], ?_⟩
  intro e he
  rcases List.mem_append.mp he with he | he
  · exact k e he
  · rw [List.mem_singleton.mp he]; rfl

theorem run_loop_events (ticks : List (List Completion)) (sim : Sim) :
    ∃ extra, (run_loop sim ticks).events = sim.events ++ extra ∧
      ∀ e ∈ extra, is_loop_call e = true := by
  induction ticks generalizing sim with
  | nil => exact ⟨[], by simp [run_loop], by simp⟩
  | cons t rest ih =>
    obtain ⟨x1, h1, k1⟩ := tick_events sim t
    obtain ⟨x2, h2, k2⟩ := ih (tick sim t)
    refine ⟨x1 ++ x2, ?_, ?_⟩
    · simp only [run_loop, List.foldl_cons] at h2 ⊢
      rw [h2, h1, List.append_assoc]
    · intro e he
      rcases List.mem_append.mp he with he | he
      · exact k1 e he
      · exact k2 e he

theorem dispatch_state (sim : Sim) (c : Completion) :
    (dispatch sim c).state.stream = sim.state.stream ∧
    (dispatch sim c).state.allocator = sim.state.allocator ∧
    (dispatch sim c).state.pixelformat = sim.state.pixelformat := by
  unfold dispatch
  cases sim.queued[c.slot]? with
  | none => exact ⟨rfl, rfl, rfl⟩
  | some r =>
    simp only [request_completed]
    split_ifs
    · exact ⟨rfl, rfl, rfl⟩
    · cases c.created <;> exact ⟨rfl, rfl, rfl⟩

theorem foldl_dispatch_state (completions : List Completion) (sim : Sim) :
    (completions.foldl dispatch sim).state.stream = sim.state.stream ∧
    (completions.foldl dispatch sim).state.allocator = sim.state.allocator ∧
    (completions.foldl dispatch sim).state.pixelformat = sim.state.pixelformat := by
  induction completions generalizing sim with
  | nil => exact ⟨rfl, rfl, rfl⟩
  | cons c rest ih =>
    obtain ⟨h1, h2, h3⟩ := ih (dispatch sim c)
    obtain ⟨k1, k2, k3⟩ := dispatch_state sim c
    exact ⟨h1.trans k1, h2.trans k2, h3.trans k3⟩

theorem run_loop_state (ticks : List (List Completion)) (sim : Sim) :
    (run_loop sim ticks).state.stream = sim.state.stream ∧
    (run_loop sim ticks).state.allocator = sim.state.allocator ∧
    (run_loop sim ticks).state.pixelformat = sim.state.pixelformat := by
  induction ticks generalizing sim with
  | nil => exact ⟨rfl, rfl, rfl⟩
  | cons t rest ih =>
    obtain ⟨h1, h2, h3⟩ := ih (tick sim t)
    obtain ⟨k1, k2, k3⟩ := foldl_dispatch_state t sim
    exact ⟨h1.trans k1, h2.trans k2, h3.trans k3⟩

theorem teardown_ops_of_pool_calls (evs : List Event)
    (h : ∀ e ∈ evs, is_pool_call e = true) : teardown_ops evs = [] := by
  unfold teardown_ops
  rw [List.filter_eq_nil_iff]
  intro e he
  have := h e he
  cases e <;> simp_all [is_pool_call, is_teardown_op]

theorem teardown_ops_of_loop_calls (evs : List Event)
    (h : ∀ e ∈ evs, is_loop_call e = true) : teardown_ops evs = [] := by
  unfold teardown_ops
  rw [List.filter_eq_nil_iff]
  intro e he
  have := h e he
  cases e <;> simp_all [is_loop_call, is_teardown_op]

theorem teardown_ops_append (a b : List Event) :
    teardown_ops (a ++ b) = teardown_ops a ++ teardown_ops b := by
  simp [teardown_ops]

/-! ## The paths of `operator()` -/

theorem not_pool_call_of_mem {e : Event} {evs : List Event}
    (h : ∀ x ∈ evs, is_pool_call x = true) (he : is_pool_call e = false) : e ∉ evs := by
  intro hm
  rw [h e hm] at he
  cases he

theorem teardown_ops_queue (requests : List Request) :
    teardown_ops (requests.map Event.queueRequest) = [] := by
  unfold teardown_ops
  rw [List.filter_eq_nil_iff]
  intro e he
  obtain ⟨r, _, rfl⟩ := List.mem_map.mp he
  simp [is_teardown_op]

theorem capture_rejected (cfg : Config) (d : Device) (ticks : List (List Completion))
    (s : State) (cc : List StreamConfiguration) (h : d.configure ≠ 0) :
    capture cfg d ticks s cc
      = { state := s, queued := [],
          events := [Event.configure cc, Event.log LogLevel.LL_ERR "Cannot configure camera"] } := by
  simp [capture, h]

theorem capture_pool_failed (cfg : Config) (d : Device) (ticks : List (List Completion))
    (s : State) (cc : List StreamConfiguration) (h : d.configure = 0)
    (hf : (build_pool cfg d d.stream d.buffers 0 s.mappedBuffers s.requests).fail = true) :
    capture cfg d ticks s cc
      = { state := { s with
            stream := some d.stream
            allocator := some { buffers := d.buffers }
            mappedBuffers :=
              (build_pool cfg d d.stream d.buffers 0 s.mappedBuffers s.requests).mappedBuffers
            requests :=
              (build_pool cfg d d.stream d.buffers 0 s.mappedBuffers s.requests).requests },
          queued := [],
          events := [Event.configure cc, Event.allocate d.stream,
            Event.log LogLevel.LL_INFO "Allocated %u buffers for stream"]
            ++ (build_pool cfg d d.stream d.buffers 0 s.mappedBuffers s.requests).events } := by
  simp [capture, h, hf]

theorem capture_started (cfg : Config) (d : Device) (ticks : List (List Completion))
    (s : State) (cc : List StreamConfiguration) (h : d.configure = 0)
    (hf : (build_pool cfg d d.stream d.buffers 0 s.mappedBuffers s.requests).fail = false) :
    capture cfg d ticks s cc
      = run_loop
          { state := { s with
              stream := some d.stream
              allocator := some { buffers := d.buffers }
              mappedBuffers :=
                (build_pool cfg d d.stream d.buffers 0 s.mappedBuffers s.requests).mappedBuffers
              requests :=
                (build_pool cfg d d.stream d.buffers 0 s.mappedBuffers s.requests).requests },
            queued := (build_pool cfg d d.stream d.buffers 0 s.mappedBuffers s.requests).requests,
            events := [Event.configure cc, Event.allocate d.stream,
              Event.log LogLevel.LL_INFO "Allocated %u buffers for stream"]
              ++ (build_pool cfg d d.stream d.buffers 0 s.mappedBuffers s.requests).events
              ++ [Event.connect_requestCompleted, Event.camera_start]
              ++ List.map Event.queueRequest
                (build_pool cfg d d.stream d.buffers 0 s.mappedBuffers s.requests).requests }
          ticks := by
  simp [capture, h, hf]

theorem capture_teardown_ops (cfg : Config) (d : Device) (ticks : List (List Completion))
    (s : State) (cc : List StreamConfiguration) :
    teardown_ops (capture cfg d ticks s cc).events = [] := by
  have hpool := build_pool_calls cfg d d.stream d.buffers 0 s.mappedBuffers s.requests
  by_cases h : d.configure = 0
  · cases hf : (build_pool cfg d d.stream d.buffers 0 s.mappedBuffers s.requests).fail with
    | true =>
      rw [capture_pool_failed cfg d ticks s cc h hf]
      simp only [teardown_ops_append, teardown_ops_of_pool_calls _ hpool]
      simp [teardown_ops, is_teardown_op]
    | false =>
      rw [capture_started cfg d ticks s cc h hf]
      obtain ⟨extra, he, hk⟩ := run_loop_events ticks
        { state := { s with
            stream := some d.stream
            allocator := some { buffers := d.buffers }
            mappedBuffers :=
              (build_pool cfg d d.stream d.buffers 0 s.mappedBuffers s.requests).mappedBuffers
            requests :=
              (build_pool cfg d d.stream d.buffers 0 s.mappedBuffers s.requests).requests },
          queued := (build_pool cfg d d.stream d.buffers 0 s.mappedBuffers s.requests).requests,
          events := [Event.configure cc, Event.allocate d.stream,
            Event.log LogLevel.LL_INFO "Allocated %u buffers for stream"]
            ++ (build_pool cfg d d.stream d.buffers 0 s.mappedBuffers s.requests).events
            ++ [Event.connect_requestCompleted, Event.camera_start]
            ++ List.map Event.queueRequest
              (build_pool cfg d d.stream d.buffers 0 s.mappedBuffers s.requests).requests }
      rw [he]
      simp only [teardown_ops_append, teardown_ops_of_pool_calls _ hpool, teardown_ops_queue,
        teardown_ops_of_loop_calls _ hk]
      simp [teardown_ops, is_teardown_op]
  · rw [capture_rejected cfg d ticks s cc h]
    simp [teardown_ops, is_teardown_op]

theorem capture_members (cfg : Config) (d : Device) (ticks : List (List Completion))
    (s : State) (cc : List StreamConfiguration) :
    (d.configure ≠ 0 → (capture cfg d ticks s cc).state = s) ∧
    (d.configure = 0 → (capture cfg d ticks s cc).state.stream = some d.stream ∧
      (capture cfg d ticks s cc).state.allocator = some { buffers := d.buffers }) := by
  constructor
  · intro h
    rw [capture_rejected cfg d ticks s cc h]
  · intro h
    cases hf : (build_pool cfg d d.stream d.buffers 0 s.mappedBuffers s.requests).fail with
    | true =>
      rw [capture_pool_failed cfg d ticks s cc h hf]
      exact ⟨rfl, rfl⟩
    | false =>
      rw [capture_started cfg d ticks s cc h hf]
      obtain ⟨k1, k2, _⟩ := run_loop_state ticks
        { state := { s with
            stream := some d.stream
            allocator := some { buffers := d.buffers }
            mappedBuffers :=
              (build_pool cfg d d.stream d.buffers 0 s.mappedBuffers s.requests).mappedBuffers
            requests :=
              (build_pool cfg d d.stream d.buffers 0 s.mappedBuffers s.requests).requests },
          queued := (build_pool cfg d d.stream d.buffers 0 s.mappedBuffers s.requests).requests,
          events := [Event.configure cc, Event.allocate d.stream,
            Event.log LogLevel.LL_INFO "Allocated %u buffers for stream"]
            ++ (build_pool cfg d d.stream d.buffers 0 s.mappedBuffers s.requests).events
            ++ [Event.connect_requestCompleted, Event.camera_start]
            ++ List.map Event.queueRequest
              (build_pool cfg d d.stream d.buffers 0 s.mappedBuffers s.requests).requests }
      exact ⟨k1, k2⟩

/-- Every run of `operator()` either stops before the camera is configured, with no
teardown operation performed and no member assigned, or goes through `capture` and
the termination section. -/
theorem operator_call_cases (cfg : Config) (d : Device) (ticks : List (List Completion)) :
    ((operator_call cfg d ticks).ending ≠ Ending.returned ∧
      teardown_ops (operator_call cfg d ticks).events = [] ∧
      (∀ c, Event.configure c ∉ (operator_call cfg d ticks).events) ∧
      Event.camera_start ∉ (operator_call cfg d ticks).events) ∨
    ∃ (s : State) (pre : List Event) (cc : List StreamConfiguration),
      s.stream = none ∧ s.allocator = none ∧ s.mappedBuffers = [] ∧ s.requests = [] ∧
      teardown_ops pre = [] ∧ (∀ c, Event.configure c ∉ pre) ∧ Event.camera_start ∉ pre ∧
      operator_call cfg d ticks
        = { events := pre ++ (capture cfg d ticks s cc).events
              ++ (teardown (capture cfg d ticks s cc).state).1,
            state := (capture cfg d ticks s cc).state,
            queued := (capture cfg d ticks s cc).queued,
            ending := (teardown (capture cfg d ticks s cc).state).2 } := by
  by_cases h1 : d.cm_start = 0
  swap
  · left; simp [operator_call, h1, teardown_ops, is_teardown_op]
  by_cases h2 : d.camera = true
  swap
  · left; simp [operator_call, h1, h2, teardown_ops, is_teardown_op]
  by_cases h3 : d.acquire = 0
  swap
  · left; simp [operator_call, h1, h2, h3, teardown_ops, is_teardown_op]
  by_cases h4 : d.camera_config.length ≤ select_index cfg.prefer_jpeg d.camera_config
  · left; simp [operator_call, h1, h2, h3, h4, teardown_ops, is_teardown_op]
  cases hsc : (d.validate (prepare_config cfg d.camera_config
      (select_index cfg.prefer_jpeg d.camera_config)))[select_index cfg.prefer_jpeg
        d.camera_config]? with
  | none => left; simp [operator_call, h1, h2, h3, h4, hsc, teardown_ops, is_teardown_op]
  | some stream_config =>
    right
    refine ⟨State.mk stream_config.pixelFormat stream_config.width stream_config.height
        none none [] [],
      [Event.log LogLevel.LL_INFO "source libcamera thread started",
        Event.set_thread_name "src_libcamera", Event.cm_start, Event.cm_get cfg.dev,
        Event.camera_acquire, Event.log LogLevel.LL_INFO "Camera name: %s",
        Event.log LogLevel.LL_INFO " Controls:%s", Event.generateConfiguration,
        Event.validate (prepare_config cfg d.camera_config
          (select_index cfg.prefer_jpeg d.camera_config)),
        Event.log LogLevel.LL_INFO "Validated configuration is: %s (%c%c%c%c)"],
      d.validate (prepare_config cfg d.camera_config
        (select_index cfg.prefer_jpeg d.camera_config)),
      rfl, rfl, rfl, rfl, by simp [teardown_ops, is_teardown_op], by simp, by simp, ?_⟩
    simp [operator_call, h1, h2, h3, h4, hsc, State.initial]

/-! ## Termination section -/

theorem teardown_returned (s : State) (h : (teardown s).2 = Ending.returned) :
    ∃ stream, s.stream = some stream ∧ s.allocator.isSome = true ∧
      (teardown s).1 = [Event.log LogLevel.LL_INFO "source libcamera thread terminating",
        Event.camera_stop, Event.allocator_free stream, Event.allocator_delete,
        Event.camera_release, Event.cm_stop, Event.register_thread_end "source libcamera"] := by
  unfold teardown at h ⊢
  cases ha : s.allocator with
  | none => simp [ha] at h
  | some a =>
    cases hs : s.stream with
    | none => simp [ha, hs] at h
    | some stream => exact ⟨stream, rfl, rfl, by simp⟩

theorem teardown_unassigned (s : State) (ha : s.allocator = none) :
    teardown s = ([Event.log LogLevel.LL_INFO "source libcamera thread terminating",
        Event.camera_stop], Ending.fault) := by
  unfold teardown
  rw [ha]

/-- Wherever `operator()` returns, the four teardown operations were performed once
each, in the order stop, free, release, stop of the manager, all of them in the
termination section, on an allocator and a stream assigned on that path. -/
theorem operator_call_returned (cfg : Config) (d : Device) (ticks : List (List Completion))
    (h : (operator_call cfg d ticks).ending = Ending.returned) :
    ∃ pre stream, teardown_ops pre = [] ∧
      (operator_call cfg d ticks).state.stream = some stream ∧
      (operator_call cfg d ticks).state.allocator.isSome = true ∧
      (operator_call cfg d ticks).events
        = pre ++ [Event.log LogLevel.LL_INFO "source libcamera thread terminating",
            Event.camera_stop, Event.allocator_free stream, Event.allocator_delete,
            Event.camera_release, Event.cm_stop,
            Event.register_thread_end "source libcamera"] ∧
      teardown_ops (operator_call cfg d ticks).events
        = [Event.camera_stop, Event.allocator_free stream, Event.camera_release,
            Event.cm_stop] := by
  rcases operator_call_cases cfg d ticks with ⟨hne, _⟩ | ⟨s, pre, cc, _, _, _, _, hpre, _, _, heq⟩
  · exact absurd h hne
  · rw [heq] at h ⊢
    obtain ⟨stream, hs, ha, htd⟩ := teardown_returned _ h
    refine ⟨pre ++ (capture cfg d ticks s cc).events, stream, ?_, hs, ha, ?_, ?_⟩
    · rw [teardown_ops_append, hpre, capture_teardown_ops]; rfl
    · simp only [htd]
    · simp only [htd, teardown_ops_append, hpre, capture_teardown_ops]
      simp [teardown_ops, is_teardown_op]

/-- C10: whenever `camera->configure` is called and rejects the configuration, the
termination section is reached with no allocator and no stream assigned on that
path; the call `allocator->free(stream)` then has nothing to act on and the run
ends there, after `camera->stop()`. -/
theorem configure_rejected_unassigned (cfg : Config) (d : Device)
    (ticks : List (List Completion))
    (hcall : ∃ c, Event.configure c ∈ (operator_call cfg d ticks).events)
    (hrej : d.configure ≠ 0) :
    (operator_call cfg d ticks).state.allocator = none ∧
    (operator_call cfg d ticks).state.stream = none ∧
    (operator_call cfg d ticks).ending = Ending.fault ∧
    (operator_call cfg d ticks).events.getLast? = some Event.camera_stop ∧
    ∀ stream, Event.allocator_free stream ∉ (operator_call cfg d ticks).events := by
  rcases operator_call_cases cfg d ticks with ⟨_, _, hno, _⟩ | ⟨s, pre, cc, hs, ha, _, _, hpre, _, _, heq⟩
  · obtain ⟨c, hc⟩ := hcall
    exact absurd hc (hno c)
  · have hst := (capture_members cfg d ticks s cc).1 hrej
    have htd := teardown_unassigned (capture cfg d ticks s cc).state (by rw [hst]; exact ha)
    rw [heq]
    simp only [htd]
    refine ⟨by rw [hst]; exact ha, by rw [hst]; exact hs, trivial, by simp, ?_⟩
    intro stream hmem
    have hops : teardown_ops (pre ++ (capture cfg d ticks s cc).events
        ++ [Event.log LogLevel.LL_INFO "source libcamera thread terminating",
          Event.camera_stop]) = [Event.camera_stop] := by
      simp only [teardown_ops_append, hpre, capture_teardown_ops]
      simp [teardown_ops, is_teardown_op]
    have : Event.allocator_free stream ∈ teardown_ops (pre ++ (capture cfg d ticks s cc).events
        ++ [Event.log LogLevel.LL_INFO "source libcamera thread terminating",
          Event.camera_stop]) := by
      unfold teardown_ops
      exact List.mem_filter.mpr ⟨hmem, rfl⟩
    rw [hops] at this
    simp at this

theorem configure_rejected_unassigned_witness :
    (∃ c, Event.configure c ∈ (operator_call cfg_controls dev_rejecting []).events) ∧
    dev_rejecting.configure ≠ 0 ∧
    (operator_call cfg_controls dev_rejecting []).state.allocator = none ∧
    (operator_call cfg_controls dev_rejecting []).ending = Ending.fault :=
  ⟨⟨[{ pixelFormat := DRM_FORMAT_RGB888, width := 640, height := 480 }], by decide⟩,
    by decide,
    (configure_rejected_unassigned cfg_controls dev_rejecting []
      ⟨[{ pixelFormat := DRM_FORMAT_RGB888, width := 640, height := 480 }], by decide⟩
      (by decide)).1,
    (configure_rejected_unassigned cfg_controls dev_rejecting []
      ⟨[{ pixelFormat := DRM_FORMAT_RGB888, width := 640, height := 480 }], by decide⟩
      (by decide)).2.2.1⟩

/-- C7, evaluated: on a camera that rejects the configuration the termination section
performs `camera->stop()` and then reaches `allocator->free(stream)` without an
allocator; the free, the release and the stop of the manager are not performed. -/
theorem rejected_configuration_teardown :
    teardown_ops (operator_call cfg_controls dev_rejecting []).events = [Event.camera_stop] ∧
    (operator_call cfg_controls dev_rejecting []).ending = Ending.fault ∧
    Event.camera_release ∉ (operator_call cfg_controls dev_rejecting []).events ∧
    Event.cm_stop ∉ (operator_call cfg_controls dev_rejecting []).events := by
  refine ⟨by decide, by decide, by decide, by decide⟩

theorem not_loop_call_of_mem {e : Event} {evs : List Event}
    (h : ∀ x ∈ evs, is_loop_call x = true) (he : is_loop_call e = false) : e ∉ evs := by
  intro hm
  rw [h e hm] at he
  cases he

theorem capture_no_validate (cfg : Config) (d : Device) (ticks : List (List Completion))
    (s : State) (cc cs : List StreamConfiguration) :
    Event.validate cs ∉ (capture cfg d ticks s cc).events := by
  have hpool := build_pool_calls cfg d d.stream d.buffers 0 s.mappedBuffers s.requests
  have hnp := not_pool_call_of_mem hpool (e := Event.validate cs) rfl
  by_cases h : d.configure = 0
  · cases hf : (build_pool cfg d d.stream d.buffers 0 s.mappedBuffers s.requests).fail with
    | true =>
      rw [capture_pool_failed cfg d ticks s cc h hf]
      simp [hnp]
    | false =>
      rw [capture_started cfg d ticks s cc h hf]
      obtain ⟨extra, he, hk⟩ := run_loop_events ticks
        { state := { s with
            stream := some d.stream
            allocator := some { buffers := d.buffers }
            mappedBuffers :=
              (build_pool cfg d d.stream d.buffers 0 s.mappedBuffers s.requests).mappedBuffers
            requests :=
              (build_pool cfg d d.stream d.buffers 0 s.mappedBuffers s.requests).requests },
          queued := (build_pool cfg d d.stream d.buffers 0 s.mappedBuffers s.requests).requests,
          events := [Event.configure cc, Event.allocate d.stream,
            Event.log LogLevel.LL_INFO "Allocated %u buffers for stream"]
            ++ (build_pool cfg d d.stream d.buffers 0 s.mappedBuffers s.requests).events
            ++ [Event.connect_requestCompleted, Event.camera_start]
            ++ List.map Event.queueRequest
              (build_pool cfg d d.stream d.buffers 0 s.mappedBuffers s.requests).requests }
      rw [he]
      have hnl := not_loop_call_of_mem hk (e := Event.validate cs) rfl
      simp [hnp, hnl]
  · rw [capture_rejected cfg d ticks s cc h]
    simp

theorem teardown_no_validate (s : State) (cs : List StreamConfiguration) :
    Event.validate cs ∉ (teardown s).1 := by
  unfold teardown
  cases s.allocator <;> cases s.stream <;> simp

/-- Whatever is offered and whatever `prefer_jpeg` is, the configuration handed to
`validate` carries RGB888 and the requested size at the chosen index. -/
theorem validate_event_rgb888 (cfg : Config) (d : Device) (ticks : List (List Completion))
    (cs : List StreamConfiguration)
    (h : Event.validate cs ∈ (operator_call cfg d ticks).events) :
    cs[select_index cfg.prefer_jpeg d.camera_config]?
      = some { pixelFormat := DRM_FORMAT_RGB888, width := cfg.w_requested,
               height := cfg.h_requested } := by
  by_cases h1 : d.cm_start = 0
  swap
  · simp [operator_call, h1] at h
  by_cases h2 : d.camera = true
  swap
  · simp [operator_call, h1, h2] at h
  by_cases h3 : d.acquire = 0
  swap
  · simp [operator_call, h1, h2, h3] at h
  by_cases h4 : d.camera_config.length ≤ select_index cfg.prefer_jpeg d.camera_config
  · simp [operator_call, h1, h2, h3, h4] at h
  have hget := prepare_config_getElem cfg d.camera_config
    (select_index cfg.prefer_jpeg d.camera_config) (Nat.lt_of_not_le h4)
  cases hsc : (d.validate (prepare_config cfg d.camera_config
      (select_index cfg.prefer_jpeg d.camera_config)))[select_index cfg.prefer_jpeg
        d.camera_config]? with
  | none =>
    simp [operator_call, h1, h2, h3, h4, hsc] at h
    rw [h]; exact hget
  | some stream_config =>
    simp [operator_call, h1, h2, h3, h4, hsc, capture_no_validate, teardown_no_validate] at h
    rw [h]; exact hget

/-! ## The plane-to-mapping table -/

theorem map_planes_find_other (d : Device) (i : Nat) (planes : List Plane) (m : MappedBuffers)
    (j0 : Nat) (fd : Int) (h : ∀ p ∈ planes, p.fd ≠ fd) :
    mapFind (map_planes d i m planes j0).1 fd = mapFind m fd := by
  induction planes generalizing m j0 with
  | nil => rfl
  | cons p rest ih =>
    simp only [map_planes]
    rw [ih _ _ (fun q hq => h q (List.mem_cons_of_mem _ hq)), mapFind_mapAssign,
      if_neg (h p (List.mem_cons_self _ _))]

theorem map_planes_find_last (d : Device) (i : Nat) (planes : List Plane) (m : MappedBuffers)
    (j0 j : Nat) (p : Plane) (hp : planes[j]? = some p)
    (hlast : ∀ j2 p2, planes[j2]? = some p2 → j < j2 → p2.fd ≠ p.fd) :
    mapFind (map_planes d i m planes j0).1 p.fd = some (d.mmap i (j0 + j), p.length) := by
  induction planes generalizing m j0 j with
  | nil => simp at hp
  | cons q rest ih =>
    simp only [map_planes]
    cases j with
    | zero =>
      simp only [List.getElem?_cons_zero, Option.some.injEq] at hp
      subst hp
      rw [map_planes_find_other, mapFind_mapAssign, if_pos rfl]
      · rfl
      · intro p2 hp2
        obtain ⟨k, hk⟩ := List.getElem?_of_mem hp2
        exact hlast (k + 1) p2 (by simpa using hk) (Nat.succ_pos k)
    | succ k =>
      have hp2 : rest[k]? = some p := by simpa using hp
      have := ih (mapAssign m q.fd (d.mmap i j0, q.length)) (j0 + 1) k hp2
        (fun j2 p2 h2 hlt => hlast (j2 + 1) p2 (by simpa using h2) (Nat.succ_lt_succ hlt))
      rw [this, show j0 + 1 + k = j0 + (k + 1) by omega]

theorem map_planes_find_isSome (d : Device) (i : Nat) (planes : List Plane) (m : MappedBuffers)
    (j0 : Nat) (fd : Int) (h : (mapFind m fd).isSome = true ∨ ∃ p ∈ planes, p.fd = fd) :
    (mapFind (map_planes d i m planes j0).1 fd).isSome = true := by
  induction planes generalizing m j0 with
  | nil =>
    rcases h with h | ⟨p, hp, _⟩
    · exact h
    · cases hp
  | cons q rest ih =>
    simp only [map_planes]
    apply ih
    by_cases hq : q.fd = fd
    · left; rw [mapFind_mapAssign, if_pos hq]; rfl
    · rcases h with h | ⟨p, hp, hfd⟩
      · left; rw [mapFind_mapAssign, if_neg hq]; exact h
      · rcases List.mem_cons.mp hp with rfl | hp
        · exact absurd hfd hq
        · exact Or.inr ⟨p, hp, hfd⟩

theorem build_pool_cons_ok (cfg : Config) (d : Device) (stream : Nat) (buffer : FrameBuffer)
    (rest : List FrameBuffer) (i : Nat) (m : MappedBuffers) (requests : List Request)
    (h : (build_pool cfg d stream (buffer :: rest) i m requests).fail = false) :
    ∃ ptr r, d.createRequest i = some ptr ∧ stream ≠ 0 ∧
      r.buffers = [(stream, buffer)] ∧
      (build_pool cfg d stream (buffer :: rest) i m requests).fail
        = (build_pool cfg d stream rest (i + 1) (map_planes d i m buffer.planes 0).1
            (requests ++ [r])).fail ∧
      (build_pool cfg d stream (buffer :: rest) i m requests).mappedBuffers
        = (build_pool cfg d stream rest (i + 1) (map_planes d i m buffer.planes 0).1
            (requests ++ [r])).mappedBuffers ∧
      (build_pool cfg d stream (buffer :: rest) i m requests).requests
        = (build_pool cfg d stream rest (i + 1) (map_planes d i m buffer.planes 0).1
            (requests ++ [r])).requests := by
  rw [build_pool] at h ⊢
  cases hcr : d.createRequest i with
  | none => rw [hcr] at h; cases h
  | some ptr =>
    rw [hcr] at h
    simp only at h ⊢
    by_cases hs : stream = 0
    · simp [Request.addBuffer, hs] at h
    · have hadd : (Request.fresh ptr).addBuffer stream buffer
          = ({ Request.fresh ptr with buffers := [(stream, buffer)] }, 0) := by
        simp [Request.addBuffer, hs, Request.fresh, bufferMapInsert]
      rw [hadd]
      simp only [lt_self_iff_false, if_false]
      refine ⟨ptr, _, rfl, hs, ?_, rfl, rfl, rfl⟩
      rw [apply_controls_fst]

theorem build_pool_find_other (cfg : Config) (d : Device) (stream : Nat)
    (buffers : List FrameBuffer) (i : Nat) (m : MappedBuffers) (requests : List Request)
    (fd : Int) (h : ∀ b ∈ buffers, ∀ p ∈ b.planes, p.fd ≠ fd) :
    mapFind (build_pool cfg d stream buffers i m requests).mappedBuffers fd = mapFind m fd := by
  induction buffers generalizing i m requests with
  | nil => rfl
  | cons buffer rest ih =>
    rw [build_pool]
    cases hcr : d.createRequest i with
    | none => rfl
    | some ptr =>
      simp only
      split_ifs
      · rfl
      · simp only
        rw [ih _ _ _ (fun b hb => h b (List.mem_cons_of_mem _ hb)),
          map_planes_find_other _ _ _ _ _ _ (h buffer (List.mem_cons_self _ _))]

theorem build_pool_find_isSome (cfg : Config) (d : Device) (stream : Nat)
    (buffers : List FrameBuffer) (i : Nat) (m : MappedBuffers) (requests : List Request)
    (fd : Int) (hf : (build_pool cfg d stream buffers i m requests).fail = false)
    (h : (mapFind m fd).isSome = true ∨ ∃ b ∈ buffers, ∃ p ∈ b.planes, p.fd = fd) :
    (mapFind (build_pool cfg d stream buffers i m requests).mappedBuffers fd).isSome = true := by
  induction buffers generalizing i m requests with
  | nil =>
    rcases h with h | ⟨b, hb, _⟩
    · exact h
    · cases hb
  | cons buffer rest ih =>
    obtain ⟨ptr, r, _, _, _, hfail, hmap, _⟩ := build_pool_cons_ok cfg d stream buffer rest i m requests hf
    rw [hmap]
    apply ih _ _ _ (by rw [← hfail]; exact hf)
    rcases h with h | ⟨b, hb, p, hp, hfd⟩
    · exact Or.inl (map_planes_find_isSome _ _ _ _ _ _ (Or.inl h))
    · rcases List.mem_cons.mp hb with rfl | hb
      · exact Or.inl (map_planes_find_isSome _ _ _ _ _ _ (Or.inr ⟨p, hp, hfd⟩))
      · exact Or.inr ⟨b, hb, p, hp, hfd⟩

theorem build_pool_find_last (cfg : Config) (d : Device) (stream : Nat)
    (buffers : List FrameBuffer) (i0 : Nat) (m : MappedBuffers) (requests : List Request)
    (hf : (build_pool cfg d stream buffers i0 m requests).fail = false)
    (i j : Nat) (b : FrameBuffer) (p : Plane)
    (hb : buffers[i]? = some b) (hp : b.planes[j]? = some p)
    (hlast : ∀ i2 j2 b2 p2, buffers[i2]? = some b2 → b2.planes[j2]? = some p2 →
      (i < i2 ∨ (i = i2 ∧ j < j2)) → p2.fd ≠ p.fd) :
    mapFind (build_pool cfg d stream buffers i0 m requests).mappedBuffers p.fd
      = some (d.mmap (i0 + i) j, p.length) := by
  induction buffers generalizing i0 m requests i with
  | nil => simp at hb
  | cons buffer rest ih =>
    obtain ⟨ptr, r, _, _, _, hfail, hmap, _⟩ := build_pool_cons_ok cfg d stream buffer rest i0 m requests hf
    rw [hmap]
    cases i with
    | zero =>
      simp only [List.getElem?_cons_zero, Option.some.injEq] at hb
      subst hb
      rw [build_pool_find_other, map_planes_find_last d i0 buffer.planes m 0 j p hp]
      · simp
      · intro j2 p2 h2 hlt
        exact hlast 0 j2 buffer p2 (by simp) h2 (Or.inr ⟨rfl, hlt⟩)
      · intro b2 hb2 p2 hp2
        obtain ⟨k, hk⟩ := List.getElem?_of_mem hb2
        obtain ⟨k2, hk2⟩ := List.getElem?_of_mem hp2
        exact hlast (k + 1) k2 b2 p2 (by simpa using hk) hk2 (Or.inl (Nat.succ_pos k))
    | succ k =>
      have hb2 : rest[k]? = some b := by simpa using hb
      have := ih (i0 + 1) _ _ (by rw [← hfail]; exact hf) k hb2
        (fun i2 j2 b2 p2 h1 h2 hlt => hlast (i2 + 1) j2 b2 p2 (by simpa using h1) h2
          (by rcases hlt with hlt | ⟨he, hlt⟩
              · exact Or.inl (Nat.succ_lt_succ hlt)
              · exact Or.inr ⟨by rw [he], hlt⟩))
      rw [this, show i0 + 1 + k = i0 + (k + 1) by omega]

/-! ## The state while the camera runs -/

theorem mapFind_mapIndex (m : MappedBuffers) (fd k : Int) (entry : Nat × Nat)
    (h : mapFind m k = some entry) : mapFind (mapIndex m fd).1 k = some entry := by
  unfold mapIndex
  cases hf : mapFind m fd with
  | some v => exact h
  | none =>
    simp only
    rw [mapFind_mapAssign]
    by_cases hk : fd = k
    · subst hk; rw [hf] at h; cases h
    · rw [if_neg hk]; exact h

theorem publish_buffers_find (pixelformat : Nat) (buffers : List (Nat × FrameBuffer))
    (m : MappedBuffers) (k : Int) (entry : Nat × Nat) (h : mapFind m k = some entry) :
    mapFind (publish_buffers pixelformat m buffers).1 k = some entry := by
  induction buffers generalizing m with
  | nil => exact h
  | cons sb rest ih =>
    obtain ⟨stream, buffer⟩ := sb
    simp only [publish_buffers]
    apply ih
    unfold publish_buffer
    cases hp : buffer.planes with
    | nil => exact h
    | cons plane more =>
      simp only
      split_ifs <;> exact mapFind_mapIndex _ _ _ _ h

theorem request_completed_find (s : State) (request : Request) (created : Option Nat)
    (k : Int) (entry : Nat × Nat) (h : mapFind s.mappedBuffers k = some entry) :
    mapFind (request_completed s request created).1.mappedBuffers k = some entry := by
  unfold request_completed
  split_ifs
  · exact h
  · cases created <;> exact publish_buffers_find _ _ _ _ _ h

theorem dispatch_find (sim : Sim) (c : Completion) (k : Int) (entry : Nat × Nat)
    (h : mapFind sim.state.mappedBuffers k = some entry) :
    mapFind (dispatch sim c).state.mappedBuffers k = some entry := by
  unfold dispatch
  cases sim.queued[c.slot]? with
  | none => exact h
  | some r => exact request_completed_find _ _ _ _ _ h

theorem foldl_dispatch_find (completions : List Completion) (sim : Sim) (k : Int)
    (entry : Nat × Nat) (h : mapFind sim.state.mappedBuffers k = some entry) :
    mapFind (completions.foldl dispatch sim).state.mappedBuffers k = some entry := by
  induction completions generalizing sim with
  | nil => exact h
  | cons c rest ih => exact ih _ (dispatch_find sim c k entry h)

theorem run_loop_find (ticks : List (List Completion)) (sim : Sim) (k : Int)
    (entry : Nat × Nat) (h : mapFind sim.state.mappedBuffers k = some entry) :
    mapFind (run_loop sim ticks).state.mappedBuffers k = some entry := by
  induction ticks generalizing sim with
  | nil => exact h
  | cons t rest ih => exact ih (tick sim t) (foldl_dispatch_find t sim k entry h)

/-- When the camera was started, set-up and pool build succeeded, the run loop ran
from the pool's state with the pool queued, and `operator()` returned. -/
theorem operator_call_started (cfg : Config) (d : Device) (ticks : List (List Completion))
    (h : Event.camera_start ∈ (operator_call cfg d ticks).events) :
    ∃ sim0 : Sim,
      (build_pool cfg d d.stream d.buffers 0 [] []).fail = false ∧
      sim0.state.mappedBuffers = (build_pool cfg d d.stream d.buffers 0 [] []).mappedBuffers ∧
      sim0.queued = (build_pool cfg d d.stream d.buffers 0 [] []).requests ∧
      (operator_call cfg d ticks).state = (run_loop sim0 ticks).state ∧
      (operator_call cfg d ticks).queued = (run_loop sim0 ticks).queued ∧
      (operator_call cfg d ticks).ending = Ending.returned := by
  rcases operator_call_cases cfg d ticks with
    ⟨_, _, _, hno⟩ | ⟨s, pre, cc, hs, ha, hm, hr, hpre, _, hpre2, heq⟩
  · exact absurd h hno
  · have hmem := capture_members cfg d ticks s cc
    rw [heq] at h ⊢
    by_cases hc : d.configure = 0
    · obtain ⟨hst, hal⟩ := hmem.2 hc
      have htd : teardown (capture cfg d ticks s cc).state
          = ([Event.log LogLevel.LL_INFO "source libcamera thread terminating",
              Event.camera_stop, Event.allocator_free d.stream, Event.allocator_delete,
              Event.camera_release, Event.cm_stop,
              Event.register_thread_end "source libcamera"], Ending.returned) := by
        unfold teardown
        rw [hst, hal]
        rfl
      have hpool := build_pool_calls cfg d d.stream d.buffers 0 s.mappedBuffers s.requests
      cases hf : (build_pool cfg d d.stream d.buffers 0 s.mappedBuffers s.requests).fail with
      | true =>
        exfalso
        rw [htd, capture_pool_failed cfg d ticks s cc hc hf] at h
        have hnp := not_pool_call_of_mem hpool (e := Event.camera_start) rfl
        simp [hpre2, hnp] at h
      | false =>
        rw [htd]
        rw [capture_started cfg d ticks s cc hc hf]
        rw [hm, hr] at hf ⊢
        exact ⟨_, hf, rfl, rfl, rfl, rfl, rfl⟩
    · exfalso
      rw [capture_rejected cfg d ticks s cc hc] at h
      simp only [teardown_unassigned s ha] at h
      simp [hpre2] at h

/-! ## What the table holds after the pool build, and at exit -/

/-- C9, as stated, fails: with two planes backed by one descriptor the pool build
succeeds and the table entry of the descriptor is the mapping of the second plane,
whose address and length are not those of the first plane. -/
theorem shared_descriptor_not_described :
    (build_pool cfg_controls dev_shared_fd dev_shared_fd.stream dev_shared_fd.buffers 0 [] []).fail
      = false ∧
    ¬ table_describes_planes dev_shared_fd
      (build_pool cfg_controls dev_shared_fd dev_shared_fd.stream dev_shared_fd.buffers 0 []
        []).mappedBuffers := by
  refine ⟨by decide, ?_⟩
  intro h
  have h0 := h 0 0 { ptr := 4096, planes := [{ fd := 20, length := 307200 },
    { fd := 20, length := 153600 }] } { fd := 20, length := 307200 } rfl rfl
  revert h0
  decide

/-- C9, amended: after a successful pool build every plane of every allocated buffer
finds an entry under its descriptor, and the entry holds the address and length of the
mapping established last under that descriptor: for a plane that no plane mapped
later shares its descriptor with, its own address and its own length. -/
theorem pool_table_last_mapping (cfg : Config) (d : Device)
    (hf : (build_pool cfg d d.stream d.buffers 0 [] []).fail = false) :
    (∀ b ∈ d.buffers, ∀ p ∈ b.planes,
      ∃ entry, mapFind (build_pool cfg d d.stream d.buffers 0 [] []).mappedBuffers p.fd
        = some entry) ∧
    (∀ i j b p, d.buffers[i]? = some b → b.planes[j]? = some p →
      (∀ i2 j2 b2 p2, d.buffers[i2]? = some b2 → b2.planes[j2]? = some p2 →
        (i < i2 ∨ (i = i2 ∧ j < j2)) → p2.fd ≠ p.fd) →
      mapFind (build_pool cfg d d.stream d.buffers 0 [] []).mappedBuffers p.fd
        = some (d.mmap i j, p.length)) := by
  constructor
  · intro b hb p hp
    have := build_pool_find_isSome cfg d d.stream d.buffers 0 [] [] p.fd hf
      (Or.inr ⟨b, hb, p, hp, rfl⟩)
    exact Option.isSome_iff_exists.mp this
  · intro i j b p hb hp hlast
    have := build_pool_find_last cfg d d.stream d.buffers 0 [] [] hf i j b p hb hp hlast
    simpa using this

theorem pool_table_last_mapping_witness :
    (build_pool cfg_controls dev_shared_fd dev_shared_fd.stream dev_shared_fd.buffers 0 [] []).fail
      = false ∧
    mapFind (build_pool cfg_controls dev_shared_fd dev_shared_fd.stream dev_shared_fd.buffers 0 []
      []).mappedBuffers 20 = some (33554432, 153600) :=
  ⟨by decide,
    (pool_table_last_mapping cfg_controls dev_shared_fd (by decide)).2 0 1
      { ptr := 4096, planes := [{ fd := 20, length := 307200 }, { fd := 20, length := 153600 }] }
      { fd := 20, length := 153600 } rfl rfl
      (fun i2 j2 b2 p2 h1 h2 hlt => by
        exfalso
        rcases hlt with hlt | ⟨he, hlt⟩
        · have hi : dev_shared_fd.buffers[i2]? = none :=
            List.getElem?_eq_none (by simpa [dev_shared_fd] using hlt)
          rw [hi] at h1
          cases h1
        · subst he
          have hb : b2 = { ptr := 4096, planes := [{ fd := 20, length := 307200 },
              { fd := 20, length := 153600 }] } := by
            simpa [dev_shared_fd] using h1.symm
          subst hb
          have hj : ([{ fd := 20, length := 307200 }, { fd := 20, length := 153600 }] :
              List Plane)[j2]? = none :=
            List.getElem?_eq_none (by simpa using hlt)
          rw [hj] at h2
          cases h2)⟩

/-- C8, as stated, fails: a run that leaves through the stop flag returns with the
mapping of its plane still recorded in `mappedBuffers`. -/
theorem stop_keeps_mappings :
    Event.camera_start ∈ (operator_call cfg_controls dev_controls [[], []]).events ∧
    (operator_call cfg_controls dev_controls [[], []]).ending = Ending.returned ∧
    (operator_call cfg_controls dev_controls [[], []]).state.mappedBuffers
      = [(20, (16777216, 921600))] ∧
    (operator_call cfg_controls dev_controls [[], []]).state.mappedBuffers ≠ [] := by
  refine ⟨by decide, by decide, by decide, by decide⟩

/-- C8, amended: when `operator()` exits after a stop signal, nothing has been
unmapped: every entry that the pool build recorded in `mappedBuffers` is still
there, so every plane of every allocated buffer still has its descriptor recorded. -/
theorem stop_retains_table (cfg : Config) (d : Device) (ticks : List (List Completion))
    (h : Event.camera_start ∈ (operator_call cfg d ticks).events) :
    (operator_call cfg d ticks).ending = Ending.returned ∧
    (∀ fd entry,
      mapFind (build_pool cfg d d.stream d.buffers 0 [] []).mappedBuffers fd = some entry →
      mapFind (operator_call cfg d ticks).state.mappedBuffers fd = some entry) ∧
    (∀ b ∈ d.buffers, ∀ p ∈ b.planes,
      ∃ entry, mapFind (operator_call cfg d ticks).state.mappedBuffers p.fd = some entry) := by
  obtain ⟨sim0, hf, hm, _, hst, _, hend⟩ := operator_call_started cfg d ticks h
  have hkeep : ∀ fd entry,
      mapFind (build_pool cfg d d.stream d.buffers 0 [] []).mappedBuffers fd = some entry →
      mapFind (operator_call cfg d ticks).state.mappedBuffers fd = some entry := by
    intro fd entry he
    rw [hst]
    exact run_loop_find ticks sim0 fd entry (by rw [hm]; exact he)
  refine ⟨hend, hkeep, ?_⟩
  intro b hb p hp
  obtain ⟨entry, he⟩ := Option.isSome_iff_exists.mp
    (build_pool_find_isSome cfg d d.stream d.buffers 0 [] [] p.fd hf (Or.inr ⟨b, hb, p, hp, rfl⟩))
  exact ⟨entry, hkeep _ _ he⟩

theorem stop_retains_table_witness :
    Event.camera_start ∈ (operator_call cfg_controls dev_shared_fd [[]]).events ∧
    (operator_call cfg_controls dev_shared_fd [[]]).ending = Ending.returned ∧
    mapFind (operator_call cfg_controls dev_shared_fd [[]]).state.mappedBuffers 20
      = some (33554432, 153600) :=
  ⟨by decide, (stop_retains_table cfg_controls dev_shared_fd [[]] (by decide)).1,
    (stop_retains_table cfg_controls dev_shared_fd [[]] (by decide)).2.1 20 (33554432, 153600)
      (by decide)⟩

/-! ## Frame rate -/

theorem operator_call_max_fps (cfg : Config) (f : ℚ) (d : Device)
    (ticks : List (List Completion)) :
    operator_call { cfg with max_fps := f } d ticks = operator_call cfg d ticks := by
  have hp : ∀ cs idx, prepare_config { cfg with max_fps := f } cs idx = prepare_config cfg cs idx :=
    fun _ _ => rfl
  have hc : ∀ s cc, capture { cfg with max_fps := f } d ticks s cc = capture cfg d ticks s cc := by
    intro s cc
    have hb : ∀ bs i m rs, build_pool { cfg with max_fps := f } d d.stream bs i m rs
        = build_pool cfg d d.stream bs i m rs :=
      fun bs i m rs =>
        build_pool_congr cfg { cfg with max_fps := f } d d.stream rfl (fun _ _ => rfl) bs i m rs
    simp only [capture, hb]
  unfold operator_call
  simp only [hp, hc]

/-- C3, evaluated: `interval` is computed from `max_fps` and not used again, so a run
is the same for every `max_fps`; with `max_fps = 1` twelve completions delivered
during four iterations of the 100 ms run loop publish twelve frames, more than
`1 * 10 + 1`. -/
theorem frames_not_rate_limited :
    (∀ (cfg : Config) (f : ℚ) (d : Device) (ticks : List (List Completion)),
      operator_call { cfg with max_fps := f } d ticks = operator_call cfg d ticks) ∧
    cfg_one_fps.max_fps = 1 ∧
    interval cfg_one_fps.max_fps = 1000000 ∧
    interval 0 = 0 ∧
    burst.length = 4 ∧
    (published (operator_call cfg_one_fps dev_controls burst).events).length = 12 ∧
    1 * 10 + 1 < (published (operator_call cfg_one_fps dev_controls burst).events).length := by
  refine ⟨operator_call_max_fps, rfl, ?_, ?_, rfl, by decide, by decide⟩
  · have h : (1 / (1 : ℚ) * 1000 * 1000).floor = 1000000 := by
      rw [Rat.floor_def']; norm_num
    show interval 1 = 1000000
    unfold interval
    rw [if_pos (by norm_num), h]
    rfl
  · simp [interval]

/-! ## Buffer conservation -/

theorem queued_by_append (a b : List Event) : queued_by (a ++ b) = queued_by a ++ queued_by b := by
  induction a with
  | nil => rfl
  | cons e rest ih => cases e <;> simp [queued_by, ih]

theorem queued_by_publish_buffers (pixelformat : Nat) (m : MappedBuffers)
    (buffers : List (Nat × FrameBuffer)) :
    queued_by (publish_buffers pixelformat m buffers).2 = [] := by
  induction buffers generalizing m with
  | nil => rfl
  | cons sb rest ih =>
    obtain ⟨stream, buffer⟩ := sb
    simp only [publish_buffers, queued_by_append, ih, List.append_nil]
    unfold publish_buffer
    cases buffer.planes with
    | nil => rfl
    | cons plane more =>
      simp only
      split_ifs <;> rfl

theorem queued_by_rebind (request : Request) (buffers : List (Nat × FrameBuffer)) :
    queued_by (rebind request buffers).2 = [] := by
  induction buffers generalizing request with
  | nil => rfl
  | cons sb rest ih =>
    obtain ⟨stream, buffer⟩ := sb
    simp only [rebind, queued_by, ih]

theorem request_completed_queued (s : State) (request : Request) (ptr : Nat)
    (h : request.status ≠ Status.RequestCancelled) :
    queued_by (request_completed s request (some ptr)).2
      = [(rebind (Request.fresh ptr) request.buffers).1] := by
  unfold request_completed
  rw [if_neg h]
  simp only [queued_by_append, queued_by_publish_buffers, queued_by_rebind, queued_by,
    List.nil_append]

theorem request_completed_not_queued (s : State) (request : Request) (created : Option Nat)
    (h : request.status = Status.RequestCancelled ∨ created = none) :
    queued_by (request_completed s request created).2 = [] := by
  unfold request_completed
  by_cases hc : request.status = Status.RequestCancelled
  · rw [if_pos hc]; rfl
  · rw [if_neg hc]
    rcases h with h | h
    · exact absurd h hc
    · subst h
      simp only [queued_by_append, queued_by_publish_buffers, queued_by, List.nil_append]

theorem request_completed_no_free (s : State) (request : Request) (created : Option Nat)
    (stream : Nat) : Event.allocator_free stream ∉ (request_completed s request created).2 := by
  intro hm
  have := request_completed_calls s request created _ hm
  cases this

theorem bufferMapInsert_perm (stream : Nat) (buffer : FrameBuffer)
    (l : List (Nat × FrameBuffer)) :
    (bufferMapInsert stream buffer l).Perm ((stream, buffer) :: l) := by
  induction l with
  | nil => exact List.Perm.refl _
  | cons e rest ih =>
    obtain ⟨s, b⟩ := e
    unfold bufferMapInsert
    split_ifs
    · exact List.Perm.refl _
    · exact (List.Perm.cons _ ih).trans (List.Perm.swap _ _ _)

theorem rebind_perm (buffers : List (Nat × FrameBuffer)) (request : Request)
    (hnd : (buffers.map Prod.fst).Nodup) (h0 : 0 ∉ buffers.map Prod.fst)
    (hdis : ∀ s ∈ buffers.map Prod.fst, s ∉ request.buffers.map Prod.fst) :
    ((rebind request buffers).1.buffers).Perm (request.buffers ++ buffers) := by
  induction buffers generalizing request with
  | nil => simp [rebind]
  | cons sb rest ih =>
    obtain ⟨stream, buffer⟩ := sb
    simp only [List.map_cons, List.nodup_cons, List.mem_cons, not_or] at hnd h0 hdis
    have hs0 : stream ≠ 0 := fun h => h0.1 h.symm
    have hnew : stream ∉ request.buffers.map Prod.fst := hdis stream (Or.inl rfl)
    have hadd : request.addBuffer stream buffer
        = ({ request with buffers := bufferMapInsert stream buffer request.buffers }, 0) := by
      unfold Request.addBuffer
      rw [if_neg hs0, if_neg]
      simpa using hnew
    simp only [rebind, hadd]
    have hins := bufferMapInsert_perm stream buffer request.buffers
    have := ih { request with buffers := bufferMapInsert stream buffer request.buffers }
      hnd.2 h0.2 (by
        intro s hs
        simp only
        intro hmem
        have hmem2 := (hins.map Prod.fst).subset hmem
        simp only [List.map_cons, List.mem_cons] at hmem2
        rcases hmem2 with rfl | hmem2
        · exact hnd.1 hs
        · exact hdis s (Or.inr hs) hmem2)
    refine this.trans ?_
    simp only
    refine (List.Perm.append_right _ hins).trans ?_
    simp only [List.cons_append]
    exact (List.perm_middle).symm

theorem rebind_fresh (ptr : Nat) (request : Request) (h : well_formed request) :
    ((rebind (Request.fresh ptr) request.buffers).1.buffers).Perm request.buffers ∧
    well_formed (rebind (Request.fresh ptr) request.buffers).1 := by
  have hp := rebind_perm request.buffers (Request.fresh ptr) h.1 h.2
    (by intro s _; simp [Request.fresh])
  simp only [Request.fresh, List.nil_append] at hp
  refine ⟨hp, ?_, ?_⟩
  · exact ((hp.map Prod.fst).nodup_iff).mpr h.1
  · intro hm
    exact h.2 ((hp.map Prod.fst).subset hm)

theorem perm_cons_eraseIdx {α : Type} (l : List α) (i : Nat) (a : α) (h : l[i]? = some a) :
    l.Perm (a :: l.eraseIdx i) := by
  induction l generalizing i with
  | nil => simp at h
  | cons x rest ih =>
    cases i with
    | zero =>
      simp only [List.getElem?_cons_zero, Option.some.injEq] at h
      subst h
      exact List.Perm.refl _
    | succ k =>
      have hk : rest[k]? = some a := by simpa using h
      simp only [List.eraseIdx_cons_succ]
      exact (List.Perm.cons x (ih k hk)).trans (List.Perm.swap _ _ _)

theorem queued_buffers_append (a b : List Request) :
    queued_buffers (a ++ b) = queued_buffers a ++ queued_buffers b := by
  simp [queued_buffers]

theorem queued_buffers_perm {a b : List Request} (h : a.Perm b) :
    (queued_buffers a).Perm (queued_buffers b) := by
  unfold queued_buffers
  exact h.flatMap_right _

theorem build_pool_requests (cfg : Config) (d : Device) (stream : Nat)
    (buffers : List FrameBuffer) (i : Nat) (m : MappedBuffers) (requests : List Request)
    (hf : (build_pool cfg d stream buffers i m requests).fail = false) :
    ∃ rs, (build_pool cfg d stream buffers i m requests).requests = requests ++ rs ∧
      (∀ r ∈ rs, well_formed r) ∧
      queued_buffers rs = buffers.map (fun b => b.ptr) := by
  induction buffers generalizing i m requests with
  | nil => exact ⟨[], by simp [build_pool], by simp, rfl⟩
  | cons buffer rest ih =>
    obtain ⟨ptr, r, _, hs, hr, hfail, _, hreq⟩ :=
      build_pool_cons_ok cfg d stream buffer rest i m requests hf
    obtain ⟨rs, h1, h2, h3⟩ := ih (i + 1) _ (requests ++ [r]) (by rw [← hfail]; exact hf)
    refine ⟨r :: rs, ?_, ?_, ?_⟩
    · rw [hreq, h1, List.append_assoc]; rfl
    · intro x hx
      rcases List.mem_cons.mp hx with rfl | hx
      · unfold well_formed
        rw [hr]
        simp only [List.map_cons, List.map_nil, List.nodup_cons, List.not_mem_nil,
          not_false_eq_true, List.nodup_nil, and_self, List.mem_singleton, true_and]
        exact fun h => hs h.symm
      · exact h2 x hx
    · have : queued_buffers (r :: rs) = queued_buffers [r] ++ queued_buffers rs :=
        queued_buffers_append [r] rs
      rw [this, h3]
      simp [queued_buffers, hr]

theorem dispatch_conserves (sim : Sim) (c : Completion) (allocated : List Nat)
    (hwf : ∀ r ∈ sim.queued, well_formed r)
    (hperm : (queued_buffers sim.queued).Perm allocated)
    (hst : c.status ≠ Status.RequestCancelled) (hcr : c.created ≠ none) :
    (∀ r ∈ (dispatch sim c).queued, well_formed r) ∧
    (queued_buffers (dispatch sim c).queued).Perm allocated := by
  unfold dispatch
  cases hq : sim.queued[c.slot]? with
  | none => exact ⟨hwf, hperm⟩
  | some r =>
    obtain ⟨ptr, hptr⟩ := Option.ne_none_iff_exists'.mp hcr
    have hmem : r ∈ sim.queued := List.getElem?_mem hq
    have hq2 := request_completed_queued sim.state { r with status := c.status } ptr hst
    obtain ⟨hp, hw⟩ := rebind_fresh ptr r (hwf r hmem)
    simp only [hptr, hq2]
    constructor
    · intro x hx
      rcases List.mem_append.mp hx with hx | hx
      · exact hwf x (List.mem_of_mem_eraseIdx hx)
      · rw [List.mem_singleton.mp hx]; exact hw
    · have h1 := queued_buffers_perm (perm_cons_eraseIdx sim.queued c.slot r hq)
      have h2 : (queued_buffers (sim.queued.eraseIdx c.slot
          ++ [(rebind (Request.fresh ptr) r.buffers).1])).Perm
          (queued_buffers (r :: sim.queued.eraseIdx c.slot)) := by
        rw [queued_buffers_append]
        have h3 : queued_buffers (r :: sim.queued.eraseIdx c.slot)
            = queued_buffers [r] ++ queued_buffers (sim.queued.eraseIdx c.slot) :=
          queued_buffers_append [r] _
        rw [h3]
        refine List.perm_append_comm.trans (List.Perm.append_right _ ?_)
        simp only [queued_buffers, List.flatMap_cons, List.flatMap_nil, List.append_nil]
        exact hp.map _
      exact h2.trans (h1.symm.trans hperm)

theorem foldl_dispatch_conserves (completions : List Completion) (sim : Sim)
    (allocated : List Nat) (hwf : ∀ r ∈ sim.queued, well_formed r)
    (hperm : (queued_buffers sim.queued).Perm allocated)
    (hok : ∀ c ∈ completions, c.status ≠ Status.RequestCancelled ∧ c.created ≠ none) :
    (∀ r ∈ (completions.foldl dispatch sim).queued, well_formed r) ∧
    (queued_buffers (completions.foldl dispatch sim).queued).Perm allocated := by
  induction completions generalizing sim with
  | nil => exact ⟨hwf, hperm⟩
  | cons c rest ih =>
    obtain ⟨h1, h2⟩ := dispatch_conserves sim c allocated hwf hperm
      (hok c (List.mem_cons_self _ _)).1 (hok c (List.mem_cons_self _ _)).2
    exact ih (dispatch sim c) h1 h2 (fun x hx => hok x (List.mem_cons_of_mem _ hx))

theorem run_loop_conserves (ticks : List (List Completion)) (sim : Sim)
    (allocated : List Nat) (hwf : ∀ r ∈ sim.queued, well_formed r)
    (hperm : (queued_buffers sim.queued).Perm allocated)
    (hok : ∀ t ∈ ticks, ∀ c ∈ t, c.status ≠ Status.RequestCancelled ∧ c.created ≠ none) :
    (∀ r ∈ (run_loop sim ticks).queued, well_formed r) ∧
    (queued_buffers (run_loop sim ticks).queued).Perm allocated := by
  induction ticks generalizing sim with
  | nil => exact ⟨hwf, hperm⟩
  | cons t rest ih =>
    obtain ⟨h1, h2⟩ := foldl_dispatch_conserves t sim allocated hwf hperm
      (hok t (List.mem_cons_self _ _))
    exact ih (tick sim t) h1 h2 (fun x hx => hok x (List.mem_cons_of_mem _ hx))

/-- C2, as stated, fails: when the replacement request cannot be created, and when the
completed request is cancelled, the callback queues nothing and frees nothing, and
the buffer of the completed request is bound to no queued request afterwards. -/
theorem completion_loses_buffer :
    ¬ conserves State.initial completed_request none ∧
    ¬ conserves State.initial { completed_request with status := Status.RequestCancelled }
      (some 9000) ∧
    Event.camera_start ∈ (operator_call cfg_controls dev_controls
      [[{ slot := 0, status := Status.RequestComplete, created := none }]]).events ∧
    queued_buffers (operator_call cfg_controls dev_controls
      [[{ slot := 0, status := Status.RequestComplete, created := none }]]).queued = [] ∧
    dev_controls.buffers.map (fun b => b.ptr) = [4096] := by
  refine ⟨?_, ?_, by decide, by decide, by decide⟩
  · rintro (h | ⟨stream, h⟩)
    · have := h.length_eq
      revert this
      decide
    · exact request_completed_no_free _ _ _ _ h
  · rintro (h | ⟨stream, h⟩)
    · have := h.length_eq
      revert this
      decide
    · exact request_completed_no_free _ _ _ _ h

/-- C2, amended: after a successful pool build and initial submission, as long as no
completed request is cancelled and every replacement request is created, the buffers
bound to the queued requests are exactly the allocated buffers, each once, after
every sequence of completions; a completion that is cancelled or whose replacement
request is not created queues nothing and frees nothing. -/
theorem queue_holds_allocated_buffers (cfg : Config) (d : Device)
    (ticks : List (List Completion))
    (h : Event.camera_start ∈ (operator_call cfg d ticks).events)
    (hok : ∀ t ∈ ticks, ∀ c ∈ t, c.status ≠ Status.RequestCancelled ∧ c.created ≠ none) :
    (queued_buffers (operator_call cfg d ticks).queued).Perm (d.buffers.map (fun b => b.ptr)) ∧
    ∀ (s : State) (request : Request) (created : Option Nat),
      request.status = Status.RequestCancelled ∨ created = none →
      queued_by (request_completed s request created).2 = [] ∧
      ∀ stream, Event.allocator_free stream ∉ (request_completed s request created).2 := by
  obtain ⟨sim0, hf, _, hq, _, hqueued, _⟩ := operator_call_started cfg d ticks h
  obtain ⟨rs, hrs, hwf, hbuf⟩ := build_pool_requests cfg d d.stream d.buffers 0 [] [] hf
  rw [List.nil_append] at hrs
  refine ⟨?_, fun s request created hc =>
    ⟨request_completed_not_queued s request created hc,
      request_completed_no_free s request created⟩⟩
  rw [hqueued]
  exact (run_loop_conserves ticks sim0 _ (by rw [hq, hrs]; exact hwf)
      (by rw [hq, hrs, hbuf]) hok).2

theorem queue_holds_allocated_buffers_witness :
    Event.camera_start ∈ (operator_call cfg_controls dev_controls burst).events ∧
    (∀ t ∈ burst, ∀ c ∈ t, c.status ≠ Status.RequestCancelled ∧ c.created ≠ none) ∧
    (queued_buffers (operator_call cfg_controls dev_controls burst).queued).Perm
      (dev_controls.buffers.map (fun b => b.ptr)) ∧
    (operator_call cfg_controls dev_controls burst).queued.map (fun r => r.ptr) = [9011] :=
  ⟨by decide, by decide,
    (queue_holds_allocated_buffers cfg_controls dev_controls burst (by decide) (by decide)).1,
    by decide⟩

end Constatus
